import Mathlib

/-!
Verification development for the content-based movie recommender
(`analysis.ipynb`).  The notebook pipeline is embedded shallowly:

* `ratings.merge(movies, on="movieId")`  →  `mergeRows`
* `df["genres"].str.split("|")` + `df.explode("genres")`  →  `explodeJoined`
  (the `timestamp` column, dropped immediately afterwards, is never used)
* `df.drop_duplicates()`  →  `dropDuplicatesBy id` (keeps first occurrences,
  as pandas does)
* `df[df["genres"] != "(no genres listed)"]`  →  `cleanRows`
* `pd.get_dummies(df, columns=["genres"])`  →  each exploded row carries its
  single genre; the dummy columns are ordered as the sorted distinct labels
  (`vocabOf`), and a row's one-hot encoding is `oneHot`
* `movie_features = df_genres.drop_duplicates("movieId")[...]`  →
  `movieFeaturesOf`
* `get_user_profile` / `groupby("userId").apply`  →  `profileComp`,
  `profileVecOf`, with the group keys in sorted order (`userIdsOf`)
* `cosine_similarity` (sklearn)  →  `cosineSim`; sklearn normalizes rows,
  replacing a zero norm by 1, so a zero vector gets similarity 0
* `recommend_movies`  →  `recommend` (the mutation of the global
  `movie_features` DataFrame becomes an explicit returned `Model`)
* `predict_rating`  →  `predictRating`

Rational numbers stand for the float columns, real numbers for the float
results of `sqrt`-based cosine similarity.  A similarity value is carried as
the exact data `(dot, ‖a‖², ‖b‖²)` that determines it; `simVal` interprets
that data as the real cosine value, and the comparator `simLeB` used for
sorting is proved (`simLeB_eq_true_iff`) to decide exactly the order of the
real values.  Python `KeyError` on a failed `.loc` lookup is embedded as
`Except.error Err.notFound`.
-/

namespace CBF

/-- One row of `ratings.csv`: userId, movieId, rating, timestamp. -/
structure RatingRow where
  userId : ℕ
  movieId : ℕ
  rating : ℚ
  timestamp : ℕ
  deriving DecidableEq

/-- One row of `movies.csv`: movieId, title and the `|`-delimited genre field. -/
structure MovieRow where
  movieId : ℕ
  title : String
  genres : String
  deriving DecidableEq

/-- The sentinel genre value for movies without genre information. -/
def noGenresSentinel : String := "(no genres listed)"

/-- One exploded row of the merged frame `df` after the `timestamp` column is
dropped: one row per (rating event, genre) pair. -/
structure Row where
  userId : ℕ
  movieId : ℕ
  rating : ℚ
  title : String
  genre : String
  deriving DecidableEq

/-- `ratings.merge(movies, on="movieId")`: an inner join keeping the order of
the left (ratings) frame and, within one rating row, the order of the movies
frame. -/
def mergeRows (ratings : List RatingRow) (movies : List MovieRow) :
    List (RatingRow × MovieRow) :=
  ratings.flatMap fun rt =>
    (movies.filter fun mv => decide (mv.movieId = rt.movieId)).map fun mv => (rt, mv)

/-- Helper for `splitGenres`: splits a character list at every `'|'`,
accumulating the current piece in reverse. -/
def splitGenresAux : List Char → List Char → List String
  | [], acc => [String.mk acc.reverse]
  | c :: cs, acc =>
    if c = '|' then String.mk acc.reverse :: splitGenresAux cs []
    else splitGenresAux cs (c :: acc)

/-- `genres.split("|")`: splitting the genre field at every `'|'` character
(structurally recursive so that concrete instances reduce). -/
def splitGenres (s : String) : List String :=
  splitGenresAux s.data []

/-- One exploded row: the rating event's columns, the movie's title, one
genre. -/
def mkRow (rt : RatingRow) (mv : MovieRow) (g : String) : Row :=
  { userId := rt.userId, movieId := rt.movieId, rating := rt.rating,
    title := mv.title, genre := g }

/-- Splitting the genre field on `"|"` and exploding: one `Row` per genre of
the joined row. -/
def explodeJoined (p : RatingRow × MovieRow) : List Row :=
  (splitGenres p.2.genres).map (mkRow p.1 p.2)

/-- The exploded merged frame (`df` after cell 14, with `timestamp` dropped). -/
def rawRows (ratings : List RatingRow) (movies : List MovieRow) : List Row :=
  (mergeRows ratings movies).flatMap explodeJoined

/-- Helper for `dropDuplicatesBy`: `seen` is the list of key values already
emitted. -/
def dropDuplicatesByAux {α β : Type} [DecidableEq β] (key : α → β)
    (seen : List β) : List α → List α
  | [] => []
  | x :: xs =>
    if key x ∈ seen then dropDuplicatesByAux key seen xs
    else x :: dropDuplicatesByAux key (key x :: seen) xs

/-- `drop_duplicates` keyed by `key`: keeps the first row for each key value,
in order of first appearance (pandas `DataFrame.drop_duplicates`). -/
def dropDuplicatesBy {α β : Type} [DecidableEq β] (key : α → β)
    (l : List α) : List α :=
  dropDuplicatesByAux key [] l

/-- Removing the rows whose genre is the `"(no genres listed)"` sentinel. -/
def cleanRows (l : List Row) : List Row :=
  l.filter fun r => decide (r.genre ≠ noGenresSentinel)

/-- The cleaned exploded frame `df_genres`: merge, explode, de-duplicate,
remove sentinel rows. -/
def dfGenres (ratings : List RatingRow) (movies : List MovieRow) : List Row :=
  cleanRows (dropDuplicatesBy id (rawRows ratings movies))

/-- The genre vocabulary: the dummy columns produced by `pd.get_dummies` are
the distinct genre labels in sorted order. -/
def vocabOf (rows : List Row) : List String :=
  List.insertionSort (fun a b : String => a ≤ b)
    (dropDuplicatesBy id (rows.map fun r => r.genre))

/-- The one-hot encoding of one exploded row's genre over the vocabulary. -/
def oneHot (voc : List String) (g : String) : List ℚ :=
  voc.map fun x => if x = g then (1 : ℚ) else 0

/-- One row of the `movie_features` frame: movieId (the index), title, the
genre columns, and the `similarity` column (absent until a `recommend` call
writes it; it stores the data `(dot, ‖profile‖², ‖vec‖²)` determining the
cosine score). -/
structure FeatRow where
  movieId : ℕ
  title : String
  vec : List ℚ
  sim : Option (ℚ × ℚ × ℚ)
  deriving DecidableEq

/-- `movie_features = df_genres.drop_duplicates("movieId")[["movieId","title"] + genre_cols]`:
for each movie the first exploded row is kept, so the genre columns are that
single row's one-hot encoding. -/
def movieFeaturesOf (voc : List String) (rows : List Row) : List FeatRow :=
  (dropDuplicatesBy (fun r => r.movieId) rows).map fun r =>
    { movieId := r.movieId, title := r.title, vec := oneHot voc r.genre, sim := none }

/-- The rows of `df_genres` belonging to one user. -/
def userRowsOf (rows : List Row) (u : ℕ) : List Row :=
  rows.filter fun r => decide (r.userId = u)

/-- `user_df["rating"].sum()` over a list of exploded rows. -/
def ratingSum (l : List Row) : ℚ :=
  (l.map fun r => r.rating).sum

/-- One component of `get_user_profile`: the genre column `g` of
`user_df[genre_cols].multiply(user_df["rating"], axis=0).sum()` divided by
`user_df["rating"].sum()` (both sums range over the user's exploded rows). -/
def profileComp (rows : List Row) (u : ℕ) (g : String) : ℚ :=
  ratingSum ((userRowsOf rows u).filter fun r => decide (r.genre = g)) /
    ratingSum (userRowsOf rows u)

/-- The full profile vector of one user, in vocabulary order. -/
def profileVecOf (voc : List String) (rows : List Row) (u : ℕ) : List ℚ :=
  voc.map (profileComp rows u)

/-- The group keys of `df_genres.groupby("userId")`, in sorted order. -/
def userIdsOf (rows : List Row) : List ℕ :=
  List.insertionSort (fun a b : ℕ => a ≤ b)
    (dropDuplicatesBy id (rows.map fun r => r.userId))

/-- The shared state of the notebook after the model-building cells:
`df_genres`, the vocabulary (genre column order), `movie_features` and
`user_profiles`. -/
structure Model where
  rows : List Row
  vocab : List String
  features : List FeatRow
  profiles : List (ℕ × List ℚ)
  deriving DecidableEq

/-- Building the model from the two input relations. -/
def buildModel (ratings : List RatingRow) (movies : List MovieRow) : Model :=
  let rows := dfGenres ratings movies
  let voc := vocabOf rows
  { rows := rows
    vocab := voc
    features := movieFeaturesOf voc rows
    profiles := (userIdsOf rows).map fun u => (u, profileVecOf voc rows u) }

/-- `user_profiles.loc[user_id]`, as an `Option` (a missing key raises
`KeyError` in the source). -/
def lookupProfile (M : Model) (u : ℕ) : Option (List ℚ) :=
  (M.profiles.find? fun p => decide (p.1 = u)).map Prod.snd

/-- `movie_features.loc[movie_id]`, as an `Option`. -/
def lookupFeature (M : Model) (m : ℕ) : Option FeatRow :=
  M.features.find? fun fr => decide (fr.movieId = m)

/-- The dot product of two equal-length vectors (columns are rationals). -/
def dotQ (a b : List ℚ) : ℚ :=
  (List.zipWith (fun x y => x * y) a b).sum

/-- The squared Euclidean norm of a vector. -/
def normSq (a : List ℚ) : ℚ :=
  dotQ a a

/-- The real value of a similarity triple `(d, A, B)`: `d / (√A · √B)`,
with the convention (inherited from sklearn's row normalization, which
replaces a zero norm by 1) that a zero squared norm yields similarity 0. -/
noncomputable def simVal (t : ℚ × ℚ × ℚ) : ℝ :=
  if t.2.1 = 0 ∨ t.2.2 = 0 then 0
  else (t.1 : ℝ) / (Real.sqrt (t.2.1 : ℝ) * Real.sqrt (t.2.2 : ℝ))

/-- `sklearn.metrics.pairwise.cosine_similarity` of two vectors. -/
noncomputable def cosineSim (a b : List ℚ) : ℝ :=
  simVal (dotQ a b, normSq a, normSq b)

/-- The value of a row's `similarity` column (0 if the column is absent). -/
noncomputable def simOf (fr : FeatRow) : ℝ :=
  simVal (fr.sim.getD (0, 0, 0))

/-- Decides `simVal s ≤ simVal t` by rational arithmetic (sign analysis and
cross-multiplied squares), so that sorting by similarity is computable; the
theorem `simLeB_eq_true_iff` below proves that it decides exactly the
comparison of the real similarity values. -/
def simLeB (s t : ℚ × ℚ × ℚ) : Bool :=
  if 0 < s.2.1 ∧ 0 < s.2.2 then
    if 0 < t.2.1 ∧ 0 < t.2.2 then
      if 0 ≤ s.1 then
        decide (0 ≤ t.1) &&
          decide (s.1 ^ 2 * (t.2.1 * t.2.2) ≤ t.1 ^ 2 * (s.2.1 * s.2.2))
      else
        decide (0 ≤ t.1) ||
          decide (t.1 ^ 2 * (s.2.1 * s.2.2) ≤ s.1 ^ 2 * (t.2.1 * t.2.2))
    else decide (s.1 ≤ 0)
  else
    if 0 < t.2.1 ∧ 0 < t.2.2 then decide (0 ≤ t.1)
    else true

/-- Comparison of two `movie_features` rows by their `similarity` column:
the sort key of `recommend_movies`. -/
def simLeRow (a b : FeatRow) : Prop :=
  simLeB (a.sim.getD (0, 0, 0)) (b.sim.getD (0, 0, 0)) = true

instance decidableSimLeRow : DecidableRel simLeRow := fun _ _ =>
  inferInstanceAs (Decidable (_ = true))

/-- Failure of a query: a missing key (`KeyError` in the source, `NotFound`
in the specification). -/
inductive Err where
  | notFound
  deriving DecidableEq

/-- The movie ids of `df_genres[df_genres["userId"] == user_id]["movieId"]`:
the exclusion list of `recommend_movies`. -/
def ratedBy (M : Model) (u : ℕ) : List ℕ :=
  (M.rows.filter fun r => decide (r.userId = u)).map fun r => r.movieId

/-- Writing the `similarity` column: every `movie_features` row gets the
similarity data of its genre vector against the profile `p`. -/
def scoreRows (p : List ℚ) (frs : List FeatRow) : List FeatRow :=
  frs.map fun fr => { fr with sim := some (dotQ p fr.vec, normSq p, normSq fr.vec) }

/-- `recommend_movies(user_id, top_n)`.  The profile lookup can raise
(`Err.notFound`); on success the similarity column is written into the shared
`movie_features` (returned as the new `Model`), already-rated movies are
filtered out, the rest is sorted by similarity descending (a stable ascending
sort followed by reversal, pandas' `sort_values(ascending=False)`) and the
first `topN` rows are returned. -/
def recommend (M : Model) (u : ℕ) (topN : ℕ) :
    Except Err (List FeatRow × Model) :=
  match lookupProfile M u with
  | none => Except.error Err.notFound
  | some p =>
    let scored := scoreRows p M.features
    let candidates := scored.filter fun fr => decide (fr.movieId ∉ ratedBy M u)
    Except.ok (((List.insertionSort simLeRow candidates).reverse).take topN,
      { M with features := scored })

/-- `predict_rating(user_id, movie_id)`: cosine similarity of the user's
profile with the movie's genre vector, multiplied by the sum of the profile's
components (`user_vector.sum()`).  Either lookup can raise. -/
noncomputable def predictRating (M : Model) (u m : ℕ) : Except Err ℝ :=
  match lookupProfile M u with
  | none => Except.error Err.notFound
  | some p =>
    match lookupFeature M m with
    | none => Except.error Err.notFound
    | some fr => Except.ok (cosineSim p fr.vec * (p.sum : ℝ))

/-- The cleaned genre list of movie `m` as recorded in the movies relation:
the split genre field of the (first) movie row with id `m`, without the
sentinel.  Used to state profile/catalog properties of the pipeline. -/
def genresOf (movies : List MovieRow) (m : ℕ) : List String :=
  match movies.find? fun mv => decide (mv.movieId = m) with
  | some mv => (splitGenres mv.genres).filter fun g => decide (g ≠ noGenresSentinel)
  | none => []

/-- The title of movie `m` as recorded in the movies relation (first matching
row; `""` if absent). -/
def titleOf (movies : List MovieRow) (m : ℕ) : String :=
  match movies.find? fun mv => decide (mv.movieId = m) with
  | some mv => mv.title
  | none => ""

/-- The surviving exploded row of rating event `rt` carrying genre `g`. -/
def evRow (movies : List MovieRow) (rt : RatingRow) (g : String) : Row :=
  { userId := rt.userId, movieId := rt.movieId, rating := rt.rating,
    title := titleOf movies rt.movieId, genre := g }

/-- Derived canonical form of a catalog entry (title and surviving genre of
the kept exploded row), used to prove order-independence of model building:
movie `m` is in the catalog iff it has a movie row, a non-sentinel genre,
and at least one rating event; the kept row carries the movie's title and
its first non-sentinel genre. -/
def catalogEntryCanon (ratings : List RatingRow) (movies : List MovieRow)
    (m : ℕ) : Option (String × String) :=
  match movies.find? fun mv => decide (mv.movieId = m) with
  | none => none
  | some mv =>
    match (splitGenres mv.genres).find? fun g => decide (g ≠ noGenresSentinel) with
    | none => none
    | some g =>
      if (ratings.find? fun rt => decide (rt.movieId = m)).isSome
      then some (mv.title, g) else none

/-- The spec's §8 scenario: three movies, user 1 rated movies 1 and 2,
user 2 rated movie 3 (so that movie 3 is in the catalog). -/
def exMovies : List MovieRow :=
  [⟨1, "A", "Action|Comedy"⟩, ⟨2, "B", "Comedy"⟩, ⟨3, "C", "Action"⟩]

/-- The rating events of the spec's §8 scenario. -/
def exRatings : List RatingRow :=
  [⟨1, 1, 4, 10⟩, ⟨1, 2, 2, 11⟩, ⟨2, 3, 5, 12⟩]

/-- The model built from the §8 scenario. -/
def exModel : Model :=
  buildModel exRatings exMovies

/-- A catalog for the low-ratings scenario: two Action-only movies. -/
def lowMovies : List MovieRow :=
  [⟨1, "A", "Action"⟩, ⟨2, "B", "Action"⟩]

/-- Ratings for the low-ratings scenario: every observed rating is 1/2. -/
def lowRatings : List RatingRow :=
  [⟨1, 1, 1/2, 0⟩, ⟨2, 2, 1/2, 0⟩]

/-- A catalog for the tie-breaking scenario: three Action-only movies, ids 3,
5 and 7, in this row order. -/
def tieMovies : List MovieRow :=
  [⟨3, "C", "Action"⟩, ⟨5, "B", "Action"⟩, ⟨7, "D", "Action"⟩]

/-- Ratings for the tie-breaking scenario: user 1 rated movies 3 and 5 (in
this order), user 2 rated movie 7. -/
def tieRatings : List RatingRow :=
  [⟨1, 3, 4, 0⟩, ⟨1, 5, 4, 0⟩, ⟨2, 7, 1, 0⟩]

/-- A movies relation with a duplicated movie id (nothing in the source
forbids it): id 1 appears with title "A" first and title "B" second. -/
def dupMovies₁ : List MovieRow :=
  [⟨1, "A", "Action"⟩, ⟨1, "B", "Action"⟩]

/-- The same movie rows in the opposite order. -/
def dupMovies₂ : List MovieRow :=
  [⟨1, "B", "Action"⟩, ⟨1, "A", "Action"⟩]

/-- One rating for movie 1, so that it is in the catalog. -/
def dupRatings : List RatingRow :=
  [⟨1, 1, 4, 0⟩]

/-! ### Properties of `dropDuplicatesBy` -/

theorem dropDuplicatesByAux_congr {α β : Type} [DecidableEq β] (key : α → β)
    {s₁ s₂ : List β} (h : ∀ b, b ∈ s₁ ↔ b ∈ s₂) :
    ∀ l : List α, dropDuplicatesByAux key s₁ l = dropDuplicatesByAux key s₂ l := by
  intro l
  induction l generalizing s₁ s₂ with
  | nil => rfl
  | cons x xs ih =>
    simp only [dropDuplicatesByAux]
    by_cases hx : key x ∈ s₁
    · rw [if_pos hx, if_pos ((h _).1 hx), ih h]
    · rw [if_neg hx, if_neg (fun hc => hx ((h _).2 hc))]
      have h' : ∀ b, b ∈ key x :: s₁ ↔ b ∈ key x :: s₂ := by
        intro b; simp [h b]
      rw [ih h']

theorem dropDuplicatesByAux_seen {α β : Type} [DecidableEq β] (key : α → β)
    (k : β) : ∀ (l : List α) (seen : List β),
    dropDuplicatesByAux key (k :: seen) l =
      dropDuplicatesByAux key seen (l.filter fun y => decide (key y ≠ k)) := by
  intro l
  induction l with
  | nil => intro seen; rfl
  | cons y ys ih =>
    intro seen
    rw [List.filter_cons]
    by_cases hk : key y = k
    · have hd : (decide (key y ≠ k)) = false := by simp [hk]
      rw [hd, if_neg (by simp)]
      show dropDuplicatesByAux key (k :: seen) (y :: ys) = _
      simp only [dropDuplicatesByAux]
      rw [if_pos (by simp [hk]), ih seen]
    · have hd : (decide (key y ≠ k)) = true := by simp [hk]
      rw [hd, if_pos rfl]
      by_cases hs : key y ∈ seen
      · show dropDuplicatesByAux key (k :: seen) (y :: ys) =
          dropDuplicatesByAux key seen (y :: List.filter _ ys)
        simp only [dropDuplicatesByAux]
        rw [if_pos (by simp [hs]), if_pos hs, ih seen]
      · show dropDuplicatesByAux key (k :: seen) (y :: ys) =
          dropDuplicatesByAux key seen (y :: List.filter _ ys)
        simp only [dropDuplicatesByAux]
        rw [if_neg (by simp [hk, hs]), if_neg hs]
        have swap : dropDuplicatesByAux key (key y :: k :: seen) ys =
            dropDuplicatesByAux key (k :: key y :: seen) ys :=
          dropDuplicatesByAux_congr key (by intro b; simp; tauto) ys
        rw [swap, ih (key y :: seen)]

theorem dropDuplicatesBy_nil {α β : Type} [DecidableEq β] (key : α → β) :
    dropDuplicatesBy key ([] : List α) = [] := rfl

theorem dropDuplicatesBy_cons {α β : Type} [DecidableEq β] (key : α → β)
    (x : α) (xs : List α) :
    dropDuplicatesBy key (x :: xs) =
      x :: dropDuplicatesBy key (xs.filter fun y => decide (key y ≠ key x)) := by
  show dropDuplicatesByAux key [] (x :: xs) = _
  simp only [dropDuplicatesByAux, List.not_mem_nil, if_false]
  rw [dropDuplicatesByAux_seen]
  rfl

theorem dropDuplicatesBy_sublist {α β : Type} [DecidableEq β] (key : α → β)
    (l : List α) : (dropDuplicatesBy key l).Sublist l := by
  have H : ∀ (n : ℕ) (l : List α), l.length ≤ n →
      (dropDuplicatesBy key l).Sublist l := by
    intro n
    induction n with
    | zero =>
      intro l hl
      rw [List.length_eq_zero.1 (Nat.le_zero.1 hl), dropDuplicatesBy_nil]
    | succ n ih =>
      intro l hl
      cases l with
      | nil => rw [dropDuplicatesBy_nil]
      | cons x xs =>
        rw [dropDuplicatesBy_cons]
        refine List.Sublist.cons₂ x ?_
        have h1 := ih (xs.filter fun y => decide (key y ≠ key x))
          (le_trans (List.length_filter_le _ _) (Nat.succ_le_succ_iff.1 hl))
        exact h1.trans (List.filter_sublist xs)
  exact H l.length l le_rfl

theorem mem_of_mem_dropDuplicatesBy {α β : Type} [DecidableEq β] {key : α → β}
    {l : List α} {a : α} (h : a ∈ dropDuplicatesBy key l) : a ∈ l :=
  (dropDuplicatesBy_sublist key l).mem h

theorem mem_map_key_dropDuplicatesBy {α β : Type} [DecidableEq β] (key : α → β)
    (b : β) (l : List α) :
    b ∈ (dropDuplicatesBy key l).map key ↔ b ∈ l.map key := by
  have H : ∀ (n : ℕ) (l : List α), l.length ≤ n →
      (b ∈ (dropDuplicatesBy key l).map key ↔ b ∈ l.map key) := by
    intro n
    induction n with
    | zero =>
      intro l hl
      rw [List.length_eq_zero.1 (Nat.le_zero.1 hl), dropDuplicatesBy_nil]
    | succ n ih =>
      intro l hl
      cases l with
      | nil => rfl
      | cons x xs =>
        rw [dropDuplicatesBy_cons]
        by_cases hb : b = key x
        · simp [hb]
        · have h1 := ih (xs.filter fun y => decide (key y ≠ key x))
            (le_trans (List.length_filter_le _ _) (Nat.succ_le_succ_iff.1 hl))
          simp only [List.map_cons, List.mem_cons]
          rw [or_iff_right hb, or_iff_right hb, h1]
          constructor
          · intro hmem
            obtain ⟨y, hy, hyb⟩ := List.mem_map.1 hmem
            exact List.mem_map.2 ⟨y, (List.mem_filter.1 hy).1, hyb⟩
          · intro hmem
            obtain ⟨y, hy, hyb⟩ := List.mem_map.1 hmem
            refine List.mem_map.2 ⟨y, List.mem_filter.2 ⟨hy, ?_⟩, hyb⟩
            have hyx : key y ≠ key x := fun hc => hb (by rw [← hyb, hc])
            simpa using hyx
  exact H l.length l le_rfl

theorem mem_dropDuplicatesBy_id {α : Type} [DecidableEq α] {l : List α} {a : α} :
    a ∈ dropDuplicatesBy id l ↔ a ∈ l := by
  have := mem_map_key_dropDuplicatesBy (id : α → α) a l
  simpa using this

theorem nodup_map_key_dropDuplicatesBy {α β : Type} [DecidableEq β] (key : α → β)
    (l : List α) : ((dropDuplicatesBy key l).map key).Nodup := by
  have H : ∀ (n : ℕ) (l : List α), l.length ≤ n →
      ((dropDuplicatesBy key l).map key).Nodup := by
    intro n
    induction n with
    | zero =>
      intro l hl
      rw [List.length_eq_zero.1 (Nat.le_zero.1 hl), dropDuplicatesBy_nil]
      exact List.nodup_nil
    | succ n ih =>
      intro l hl
      cases l with
      | nil => rw [dropDuplicatesBy_nil]; exact List.nodup_nil
      | cons x xs =>
        rw [dropDuplicatesBy_cons]
        simp only [List.map_cons, List.nodup_cons]
        constructor
        · intro hc
          obtain ⟨y, hy, hky⟩ := List.mem_map.1 hc
          have := (List.mem_filter.1 (mem_of_mem_dropDuplicatesBy hy)).2
          simp [hky] at this
        · exact ih (xs.filter fun y => decide (key y ≠ key x))
            (le_trans (List.length_filter_le _ _) (Nat.succ_le_succ_iff.1 hl))
  exact H l.length l le_rfl

theorem nodup_dropDuplicatesBy_id {α : Type} [DecidableEq α] (l : List α) :
    (dropDuplicatesBy id l).Nodup := by
  have := nodup_map_key_dropDuplicatesBy (id : α → α) l
  simpa using this

theorem find?_filter_of_imp {α : Type} (q p : α → Bool)
    (h : ∀ a, q a = true → p a = true) :
    ∀ l : List α, (l.filter p).find? q = l.find? q := by
  intro l
  induction l with
  | nil => rfl
  | cons y ys ih =>
    by_cases hp : p y = true
    · rw [List.filter_cons, if_pos hp]
      cases hq : q y with
      | true => simp [List.find?_cons, hq]
      | false => simp [List.find?_cons, hq, ih]
    · have hq : q y = false := by
        cases hqy : q y with
        | true => exact absurd (h y hqy) hp
        | false => rfl
      rw [List.filter_cons, if_neg hp]
      simp [List.find?_cons, hq, ih]

theorem find?_dropDuplicatesBy {α β : Type} [DecidableEq β] (key : α → β)
    (q : α → Bool) (hq : ∀ a b, key a = key b → q a = q b)
    (l : List α) : (dropDuplicatesBy key l).find? q = l.find? q := by
  have H : ∀ (n : ℕ) (l : List α), l.length ≤ n →
      (dropDuplicatesBy key l).find? q = l.find? q := by
    intro n
    induction n with
    | zero =>
      intro l hl
      rw [List.length_eq_zero.1 (Nat.le_zero.1 hl), dropDuplicatesBy_nil]
    | succ n ih =>
      intro l hl
      cases l with
      | nil => rw [dropDuplicatesBy_nil]
      | cons x xs =>
        rw [dropDuplicatesBy_cons]
        cases hqx : q x with
        | true => simp [List.find?_cons, hqx]
        | false =>
          have h1 := ih (xs.filter fun y => decide (key y ≠ key x))
            (le_trans (List.length_filter_le _ _) (Nat.succ_le_succ_iff.1 hl))
          have h2 : (xs.filter fun y => decide (key y ≠ key x)).find? q = xs.find? q := by
            refine find?_filter_of_imp q _ ?_ xs
            intro a ha
            by_contra hc
            simp only [decide_eq_true_eq, not_not] at hc
            rw [hq a x hc, hqx] at ha
            exact Bool.false_ne_true ha
          simp only [List.find?_cons, hqx]
          rw [h1, h2]
  exact H l.length l le_rfl

/-! ### Properties of the similarity value and its comparator -/

theorem zipWith_mul_self (a : List ℚ) :
    List.zipWith (fun x y => x * y) a a = a.map fun x => x * x := by
  induction a with
  | nil => rfl
  | cons x xs ih => simp [List.zipWith_cons_cons, ih]

theorem normSq_nonneg (a : List ℚ) : 0 ≤ normSq a := by
  rw [normSq, dotQ, zipWith_mul_self]
  refine List.sum_nonneg ?_
  intro x hx
  obtain ⟨y, _, rfl⟩ := List.mem_map.1 hx
  exact mul_self_nonneg y

theorem simVal_of_not_pos {t : ℚ × ℚ × ℚ} (h : ¬(0 < t.2.1 ∧ 0 < t.2.2)) :
    simVal t = 0 := by
  by_cases hz : t.2.1 = 0 ∨ t.2.2 = 0
  · rw [simVal, if_pos hz]
  · push_neg at hz
    rw [simVal, if_neg (by push_neg; exact hz)]
    rcases not_and_or.1 h with hA | hB
    · have hA' : t.2.1 < 0 := lt_of_le_of_ne (not_lt.1 hA) hz.1
      have hs : Real.sqrt (t.2.1 : ℝ) = 0 :=
        Real.sqrt_eq_zero'.2 (by exact_mod_cast hA'.le)
      rw [hs, zero_mul, div_zero]
    · have hB' : t.2.2 < 0 := lt_of_le_of_ne (not_lt.1 hB) hz.2
      have hs : Real.sqrt (t.2.2 : ℝ) = 0 :=
        Real.sqrt_eq_zero'.2 (by exact_mod_cast hB'.le)
      rw [hs, mul_zero, div_zero]

theorem simVal_of_pos {t : ℚ × ℚ × ℚ} (hA : 0 < t.2.1) (hB : 0 < t.2.2) :
    simVal t = (t.1 : ℝ) / (Real.sqrt (t.2.1 : ℝ) * Real.sqrt (t.2.2 : ℝ)) := by
  rw [simVal, if_neg (by push_neg; exact ⟨ne_of_gt hA, ne_of_gt hB⟩)]

theorem div_le_div_iff_sq_of_nonneg {x y cx cy : ℝ} (hx : 0 ≤ x) (hy : 0 ≤ y)
    (hcx : 0 < cx) (hcy : 0 < cy) :
    x / cx ≤ y / cy ↔ x ^ 2 * cy ^ 2 ≤ y ^ 2 * cx ^ 2 := by
  rw [div_le_div_iff₀ hcx hcy,
    mul_self_le_mul_self_iff (mul_nonneg hx hcy.le) (mul_nonneg hy hcx.le)]
  have e1 : x * cy * (x * cy) = x ^ 2 * cy ^ 2 := by ring
  have e2 : y * cx * (y * cx) = y ^ 2 * cx ^ 2 := by ring
  rw [e1, e2]

theorem div_le_div_of_neg_nonneg {x y cx cy : ℝ} (hx : x < 0) (hy : 0 ≤ y)
    (hcx : 0 < cx) (hcy : 0 < cy) : x / cx ≤ y / cy :=
  (div_neg_of_neg_of_pos hx hcx).le.trans (div_nonneg hy hcy.le)

theorem not_div_le_div_of_nonneg_neg {x y cx cy : ℝ} (hx : 0 ≤ x) (hy : y < 0)
    (hcx : 0 < cx) (hcy : 0 < cy) : ¬x / cx ≤ y / cy := fun h =>
  absurd ((div_nonneg hx hcx.le).trans h) (div_neg_of_neg_of_pos hy hcy).not_le

theorem div_le_div_iff_sq_of_neg {x y cx cy : ℝ} (hx : x < 0) (hy : y < 0)
    (hcx : 0 < cx) (hcy : 0 < cy) :
    x / cx ≤ y / cy ↔ y ^ 2 * cx ^ 2 ≤ x ^ 2 * cy ^ 2 := by
  have h1 : x / cx ≤ y / cy ↔ -y / cy ≤ -x / cx := by
    rw [neg_div, neg_div, neg_le_neg_iff]
  rw [h1, div_le_div_iff_sq_of_nonneg (by linarith) (by linarith) hcy hcx]
  rw [neg_pow, neg_pow]
  norm_num

theorem sqrt_mul_sqrt_sq {A B : ℚ} (hA : 0 < A) (hB : 0 < B) :
    (Real.sqrt (A : ℝ) * Real.sqrt (B : ℝ)) ^ 2 = (A : ℝ) * (B : ℝ) := by
  rw [mul_pow, Real.sq_sqrt (by exact_mod_cast hA.le),
    Real.sq_sqrt (by exact_mod_cast hB.le)]

theorem sqrt_mul_sqrt_pos {A B : ℚ} (hA : 0 < A) (hB : 0 < B) :
    0 < Real.sqrt (A : ℝ) * Real.sqrt (B : ℝ) :=
  mul_pos (Real.sqrt_pos.2 (by exact_mod_cast hA)) (Real.sqrt_pos.2 (by exact_mod_cast hB))

/-- The rational decision procedure `simLeB` decides the real comparison of
similarity values. -/
theorem simLeB_eq_true_iff (s t : ℚ × ℚ × ℚ) :
    simLeB s t = true ↔ simVal s ≤ simVal t := by
  obtain ⟨d₁, A₁, B₁⟩ := s
  obtain ⟨d₂, A₂, B₂⟩ := t
  by_cases hs : 0 < A₁ ∧ 0 < B₁
  · by_cases ht : 0 < A₂ ∧ 0 < B₂
    · rw [simLeB, if_pos hs, if_pos ht,
        simVal_of_pos hs.1 hs.2, simVal_of_pos ht.1 ht.2]
      have hc₁ := sqrt_mul_sqrt_pos hs.1 hs.2
      have hc₂ := sqrt_mul_sqrt_pos ht.1 ht.2
      by_cases hd₁ : 0 ≤ d₁
      · rw [if_pos hd₁]
        by_cases hd₂ : 0 ≤ d₂
        · rw [div_le_div_iff_sq_of_nonneg (by exact_mod_cast hd₁)
            (by exact_mod_cast hd₂) hc₁ hc₂,
            sqrt_mul_sqrt_sq hs.1 hs.2, sqrt_mul_sqrt_sq ht.1 ht.2,
            Bool.and_eq_true, decide_eq_true_eq, decide_eq_true_eq]
          constructor
          · intro h; exact_mod_cast h.2
          · intro h; exact ⟨hd₂, by exact_mod_cast h⟩
        · have hni := not_div_le_div_of_nonneg_neg (x := (d₁ : ℝ))
            (by exact_mod_cast hd₁) (y := (d₂ : ℝ))
            (by exact_mod_cast not_le.1 hd₂) hc₁ hc₂
          simp [hd₂, hni]
      · rw [if_neg hd₁]
        by_cases hd₂ : 0 ≤ d₂
        · have hle := div_le_div_of_neg_nonneg (x := (d₁ : ℝ))
            (by exact_mod_cast not_le.1 hd₁) (y := (d₂ : ℝ))
            (by exact_mod_cast hd₂) hc₁ hc₂
          simp [hd₂, hle]
        · rw [div_le_div_iff_sq_of_neg (by exact_mod_cast not_le.1 hd₁)
            (by exact_mod_cast not_le.1 hd₂) hc₁ hc₂,
            sqrt_mul_sqrt_sq hs.1 hs.2, sqrt_mul_sqrt_sq ht.1 ht.2,
            Bool.or_eq_true, decide_eq_true_eq, decide_eq_true_eq]
          constructor
          · rintro (h | h)
            · exact absurd h hd₂
            · exact_mod_cast h
          · intro h; exact Or.inr (by exact_mod_cast h)
    · rw [simLeB, if_pos hs, if_neg ht, simVal_of_not_pos (t := (d₂, A₂, B₂)) ht,
        simVal_of_pos hs.1 hs.2]
      have hc₁ := sqrt_mul_sqrt_pos hs.1 hs.2
      rw [div_le_iff₀ hc₁, zero_mul]
      simp only [decide_eq_true_eq]
      constructor
      · intro h; exact_mod_cast h
      · intro h; exact_mod_cast h
  · rw [simLeB, if_neg hs, simVal_of_not_pos (t := (d₁, A₁, B₁)) hs]
    by_cases ht : 0 < A₂ ∧ 0 < B₂
    · rw [if_pos ht, simVal_of_pos ht.1 ht.2]
      have hc₂ := sqrt_mul_sqrt_pos ht.1 ht.2
      rw [le_div_iff₀ hc₂, zero_mul]
      simp only [decide_eq_true_eq]
      constructor
      · intro h; exact_mod_cast h
      · intro h; exact_mod_cast h
    · rw [if_neg ht, simVal_of_not_pos (t := (d₂, A₂, B₂)) ht]
      simp

/-- The sort relation of `recommend` holds exactly when the real similarity
values compare accordingly. -/
theorem simLeRow_iff (a b : FeatRow) : simLeRow a b ↔ simOf a ≤ simOf b := by
  rw [simLeRow, simLeB_eq_true_iff, simOf, simOf]

theorem simLeRow_total (a b : FeatRow) : simLeRow a b ∨ simLeRow b a := by
  rw [simLeRow_iff, simLeRow_iff]
  exact le_total _ _

theorem simLeRow_trans {a b c : FeatRow} (h₁ : simLeRow a b)
    (h₂ : simLeRow b c) : simLeRow a c := by
  rw [simLeRow_iff] at h₁ h₂ ⊢
  exact le_trans h₁ h₂

/-! ### Structure of the cleaned frame and the built model -/

theorem mem_rawRows {R : List RatingRow} {Mv : List MovieRow} {r : Row} :
    r ∈ rawRows R Mv ↔ ∃ rt ∈ R, ∃ mv ∈ Mv, mv.movieId = rt.movieId ∧
      ∃ g ∈ splitGenres mv.genres, r = mkRow rt mv g := by
  rw [rawRows, List.mem_flatMap]
  constructor
  · rintro ⟨p, hp, hr⟩
    rw [mergeRows, List.mem_flatMap] at hp
    obtain ⟨rt, hrt, hpmem⟩ := hp
    obtain ⟨mv, hmv, rfl⟩ := List.mem_map.1 hpmem
    obtain ⟨hmvmem, hid⟩ := List.mem_filter.1 hmv
    obtain ⟨g, hg, rfl⟩ := List.mem_map.1 hr
    exact ⟨rt, hrt, mv, hmvmem, by simpa using hid, g, hg, rfl⟩
  · rintro ⟨rt, hrt, mv, hmv, hid, g, hg, rfl⟩
    refine ⟨(rt, mv), ?_, ?_⟩
    · rw [mergeRows, List.mem_flatMap]
      exact ⟨rt, hrt, List.mem_map.2 ⟨mv, List.mem_filter.2 ⟨hmv, by simpa using hid⟩, rfl⟩⟩
    · exact List.mem_map.2 ⟨g, hg, rfl⟩

theorem mem_dfGenres {R : List RatingRow} {Mv : List MovieRow} {r : Row} :
    r ∈ dfGenres R Mv ↔ r ∈ rawRows R Mv ∧ r.genre ≠ noGenresSentinel := by
  rw [dfGenres, cleanRows, List.mem_filter, mem_dropDuplicatesBy_id]
  simp

theorem nodup_dfGenres (R : List RatingRow) (Mv : List MovieRow) :
    (dfGenres R Mv).Nodup := by
  rw [dfGenres, cleanRows]
  exact (nodup_dropDuplicatesBy_id _).filter _

theorem vocabOf_nodup (rows : List Row) : (vocabOf rows).Nodup := by
  rw [vocabOf]
  exact (List.perm_insertionSort _ _).nodup_iff.2 (nodup_dropDuplicatesBy_id _)

theorem genre_mem_vocabOf {rows : List Row} {r : Row} (h : r ∈ rows) :
    r.genre ∈ vocabOf rows := by
  rw [vocabOf, List.mem_insertionSort, mem_dropDuplicatesBy_id]
  exact List.mem_map.2 ⟨r, h, rfl⟩

theorem mem_userIdsOf {rows : List Row} {u : ℕ} :
    u ∈ userIdsOf rows ↔ ∃ r ∈ rows, r.userId = u := by
  rw [userIdsOf, List.mem_insertionSort, mem_dropDuplicatesBy_id, List.mem_map]

theorem lookupProfile_buildModel (R : List RatingRow) (Mv : List MovieRow)
    (u : ℕ) :
    lookupProfile (buildModel R Mv) u =
      if u ∈ userIdsOf (dfGenres R Mv)
      then some (profileVecOf (vocabOf (dfGenres R Mv)) (dfGenres R Mv) u)
      else none := by
  simp only [lookupProfile, buildModel]
  generalize userIdsOf (dfGenres R Mv) = us
  induction us with
  | nil => simp
  | cons v vs ih =>
    by_cases hv : v = u
    · subst hv
      simp [List.find?_cons]
    · have hd : (decide ((v, profileVecOf (vocabOf (dfGenres R Mv))
          (dfGenres R Mv) v).1 = u)) = false := by simp [hv]
      simp only [List.map_cons, List.find?_cons, hd]
      rw [ih]
      by_cases hu : u ∈ vs
      · rw [if_pos hu, if_pos (List.mem_cons_of_mem _ hu)]
      · rw [if_neg hu, if_neg ?_]
        intro hc
        rcases List.mem_cons.1 hc with h | h
        · exact hv h.symm
        · exact hu h

theorem rating_of_mem_dfGenres {R : List RatingRow} {Mv : List MovieRow}
    {r : Row} (h : r ∈ dfGenres R Mv) : ∃ rt ∈ R, r.rating = rt.rating := by
  obtain ⟨hraw, -⟩ := mem_dfGenres.1 h
  obtain ⟨rt, hrt, mv, -, -, g, -, rfl⟩ := mem_rawRows.1 hraw
  exact ⟨rt, hrt, rfl⟩

theorem find?_movie_iff : ∀ {Mv : List MovieRow},
    ((Mv.map fun mv => mv.movieId).Nodup) → ∀ {m : ℕ} {mv : MovieRow},
    ((mv ∈ Mv ∧ mv.movieId = m) ↔
      Mv.find? (fun x => decide (x.movieId = m)) = some mv) := by
  intro Mv
  induction Mv with
  | nil =>
    intro _ m mv
    simp
  | cons x xs ih =>
    intro h m mv
    rw [List.map_cons, List.nodup_cons] at h
    constructor
    · rintro ⟨hmem, hid⟩
      by_cases hx : x.movieId = m
      · have hd : decide (x.movieId = m) = true := by simp [hx]
        simp only [List.find?_cons, hd]
        rcases List.mem_cons.1 hmem with rfl | hmem'
        · rfl
        · exact absurd (List.mem_map.2 ⟨mv, hmem', by rw [hid, hx]⟩) h.1
      · have hd : decide (x.movieId = m) = false := by simp [hx]
        simp only [List.find?_cons, hd]
        rcases List.mem_cons.1 hmem with rfl | hmem'
        · exact absurd hid hx
        · exact (ih h.2).1 ⟨hmem', hid⟩
    · intro hf
      exact ⟨List.mem_of_find?_eq_some hf, by simpa using List.find?_some hf⟩

theorem mem_userRows_dfGenres {R : List RatingRow} {Mv : List MovieRow} {u : ℕ}
    (hMv : (Mv.map fun mv => mv.movieId).Nodup) {r : Row} :
    r ∈ userRowsOf (dfGenres R Mv) u ↔
      ∃ rt ∈ R.filter fun rt => decide (rt.userId = u),
        ∃ g ∈ genresOf Mv rt.movieId, r = evRow Mv rt g := by
  rw [userRowsOf, List.mem_filter, mem_dfGenres, mem_rawRows]
  constructor
  · rintro ⟨⟨⟨rt, hrt, mv, hmv, hid, g, hg, rfl⟩, hsent⟩, hu⟩
    have hfind : Mv.find? (fun x => decide (x.movieId = rt.movieId)) = some mv :=
      (find?_movie_iff hMv).1 ⟨hmv, hid⟩
    refine ⟨rt, List.mem_filter.2 ⟨hrt, by simpa using hu⟩, g, ?_, ?_⟩
    · rw [genresOf, hfind]
      refine List.mem_filter.2 ⟨hg, ?_⟩
      simpa using hsent
    · simp [evRow, mkRow, titleOf, hfind]
  · rintro ⟨rt, hrtf, g, hgf, rfl⟩
    obtain ⟨hrt, hu⟩ := List.mem_filter.1 hrtf
    rw [genresOf] at hgf
    rcases hfind : Mv.find? (fun x => decide (x.movieId = rt.movieId)) with _ | mv
    · rw [hfind] at hgf
      cases hgf
    · rw [hfind] at hgf
      obtain ⟨hgsplit, hgsent⟩ := List.mem_filter.1 hgf
      obtain ⟨hmv, hid⟩ := (find?_movie_iff hMv).2 hfind
      refine ⟨⟨⟨rt, hrt, mv, hmv, hid, g, hgsplit, ?_⟩, ?_⟩, ?_⟩
      · simp [evRow, mkRow, titleOf, hfind]
      · show (evRow Mv rt g).genre ≠ _
        simpa using hgsent
      · simpa [evRow] using hu

theorem ratingSum_filter_eq_sum_ite (p : Row → Bool) (l : List Row) :
    ratingSum (l.filter p) =
      (l.map fun r => if p r = true then r.rating else 0).sum := by
  induction l with
  | nil => rfl
  | cons r l ih =>
    rw [List.filter_cons]
    by_cases hp : p r = true
    · rw [if_pos hp]
      simp only [ratingSum, List.map_cons, List.sum_cons] at ih ⊢
      rw [if_pos hp, ih]
    · rw [if_neg hp]
      simp only [List.map_cons, List.sum_cons]
      rw [if_neg hp, zero_add, ih]

/-! ### Order-independence of model building -/

theorem perm_dropDuplicatesBy_id {α : Type} [DecidableEq α] {l₁ l₂ : List α}
    (h : l₁.Perm l₂) :
    (dropDuplicatesBy id l₁).Perm (dropDuplicatesBy id l₂) := by
  rw [List.perm_ext_iff_of_nodup (nodup_dropDuplicatesBy_id _)
    (nodup_dropDuplicatesBy_id _)]
  intro a
  rw [mem_dropDuplicatesBy_id, mem_dropDuplicatesBy_id]
  exact h.mem_iff

theorem sortedDedup_eq_of_perm {α : Type} [DecidableEq α] [LinearOrder α]
    {l₁ l₂ : List α} (h : l₁.Perm l₂) :
    List.insertionSort (fun a b : α => a ≤ b) (dropDuplicatesBy id l₁) =
      List.insertionSort (fun a b : α => a ≤ b) (dropDuplicatesBy id l₂) := by
  have hperm : (List.insertionSort (fun a b : α => a ≤ b)
      (dropDuplicatesBy id l₁)).Perm
      (List.insertionSort (fun a b : α => a ≤ b) (dropDuplicatesBy id l₂)) :=
    (List.perm_insertionSort _ _).trans
      ((perm_dropDuplicatesBy_id h).trans (List.perm_insertionSort _ _).symm)
  exact List.eq_of_perm_of_sorted hperm
    (List.sorted_insertionSort _ _) (List.sorted_insertionSort _ _)

theorem filter_movieId_eq_find?_toList :
    ∀ {Mv : List MovieRow}, ((Mv.map fun mv => mv.movieId).Nodup) → ∀ (k : ℕ),
    Mv.filter (fun mv => decide (mv.movieId = k)) =
      (Mv.find? fun mv => decide (mv.movieId = k)).toList := by
  intro Mv
  induction Mv with
  | nil => intro _ k; rfl
  | cons x xs ih =>
    intro h k
    rw [List.map_cons, List.nodup_cons] at h
    rw [List.filter_cons]
    by_cases hx : x.movieId = k
    · have hd : decide (x.movieId = k) = true := by simp [hx]
      rw [hd, if_pos rfl]
      simp only [List.find?_cons, hd]
      have hnil : xs.filter (fun mv => decide (mv.movieId = k)) = [] := by
        rw [List.filter_eq_nil_iff]
        intro mv hmv
        simp only [decide_eq_true_eq]
        intro hc
        exact h.1 (List.mem_map.2 ⟨mv, hmv, by rw [hc, hx]⟩)
      rw [hnil]
      rfl
    · have hd : decide (x.movieId = k) = false := by simp [hx]
      rw [hd]
      simp only [Bool.false_eq_true, if_false, List.find?_cons, hd]
      exact ih h.2 k

theorem find?_movieId_eq_of_perm {Mv₁ Mv₂ : List MovieRow}
    (hn : (Mv₁.map fun mv => mv.movieId).Nodup) (h : Mv₁.Perm Mv₂) (k : ℕ) :
    Mv₁.find? (fun mv => decide (mv.movieId = k)) =
      Mv₂.find? (fun mv => decide (mv.movieId = k)) := by
  have hn₂ : (Mv₂.map fun mv => mv.movieId).Nodup := (h.map _).nodup hn
  rcases hf : Mv₁.find? (fun mv => decide (mv.movieId = k)) with _ | mv
  · rw [hf]
    rcases hg : Mv₂.find? (fun mv => decide (mv.movieId = k)) with _ | mv'
    · rw [hg]
    · exfalso
      have hmem := List.mem_of_find?_eq_some hg
      have hnone := List.find?_eq_none.1 hf mv' (h.mem_iff.2 hmem)
      exact hnone (List.find?_some (p := fun mv : MovieRow => decide (mv.movieId = k)) hg)
  · rw [hf]
    have hmem := List.mem_of_find?_eq_some hf
    have hid : mv.movieId = k := by simpa using List.find?_some hf
    exact ((find?_movie_iff hn₂).1 ⟨h.mem_iff.1 hmem, hid⟩).symm

theorem mergeRows_perm {r₁ r₂ : List RatingRow} {m₁ m₂ : List MovieRow}
    (hn : (m₁.map fun mv => mv.movieId).Nodup)
    (hr : r₁.Perm r₂) (hm : m₁.Perm m₂) :
    (mergeRows r₁ m₁).Perm (mergeRows r₂ m₂) := by
  have hf : ∀ rt : RatingRow,
      m₁.filter (fun mv => decide (mv.movieId = rt.movieId)) =
        m₂.filter (fun mv => decide (mv.movieId = rt.movieId)) := by
    intro rt
    rw [filter_movieId_eq_find?_toList hn,
      filter_movieId_eq_find?_toList ((hm.map _).nodup hn),
      find?_movieId_eq_of_perm hn hm]
  have hfun : (fun rt : RatingRow =>
      (m₁.filter fun mv => decide (mv.movieId = rt.movieId)).map fun mv => (rt, mv)) =
      (fun rt : RatingRow =>
      (m₂.filter fun mv => decide (mv.movieId = rt.movieId)).map fun mv => (rt, mv)) :=
    funext fun rt => by rw [hf rt]
  rw [mergeRows, mergeRows, hfun]
  exact hr.flatMap_right _

theorem dfGenres_perm {r₁ r₂ : List RatingRow} {m₁ m₂ : List MovieRow}
    (hn : (m₁.map fun mv => mv.movieId).Nodup)
    (hr : r₁.Perm r₂) (hm : m₁.Perm m₂) :
    (dfGenres r₁ m₁).Perm (dfGenres r₂ m₂) := by
  have hraw : (rawRows r₁ m₁).Perm (rawRows r₂ m₂) :=
    (mergeRows_perm hn hr hm).flatMap_right explodeJoined
  exact (perm_dropDuplicatesBy_id hraw).filter _

theorem vocabOf_eq_of_perm {rows₁ rows₂ : List Row} (h : rows₁.Perm rows₂) :
    vocabOf rows₁ = vocabOf rows₂ :=
  sortedDedup_eq_of_perm (h.map _)

theorem userIdsOf_eq_of_perm {rows₁ rows₂ : List Row} (h : rows₁.Perm rows₂) :
    userIdsOf rows₁ = userIdsOf rows₂ :=
  sortedDedup_eq_of_perm (h.map _)

theorem profileComp_eq_of_perm {rows₁ rows₂ : List Row} (h : rows₁.Perm rows₂)
    (u : ℕ) (g : String) :
    profileComp rows₁ u g = profileComp rows₂ u g := by
  have h1 := h.filter (fun r => decide (r.userId = u))
  have hD : ratingSum (userRowsOf rows₁ u) = ratingSum (userRowsOf rows₂ u) := by
    rw [ratingSum, ratingSum]
    exact (h1.map _).sum_eq
  have hN : ratingSum ((userRowsOf rows₁ u).filter fun r => decide (r.genre = g)) =
      ratingSum ((userRowsOf rows₂ u).filter fun r => decide (r.genre = g)) := by
    rw [ratingSum, ratingSum]
    exact (((h1.filter _)).map _).sum_eq
  rw [profileComp, profileComp, hN, hD]

theorem option_map_or {α β : Type} (f : α → β) (x y : Option α) :
    (x.or y).map f = (x.map f).or (y.map f) := by
  cases x <;> rfl

theorem canon_movie_none {R : List RatingRow} {Mv : List MovieRow} {m : ℕ}
    (h : Mv.find? (fun mv => decide (mv.movieId = m)) = none) :
    catalogEntryCanon R Mv m = none := by
  rw [catalogEntryCanon, h]

theorem canon_genre_none {R : List RatingRow} {Mv : List MovieRow} {m : ℕ}
    {mv : MovieRow} (h : Mv.find? (fun mv => decide (mv.movieId = m)) = some mv)
    (hg : (splitGenres mv.genres).find? (fun g => decide (g ≠ noGenresSentinel)) = none) :
    catalogEntryCanon R Mv m = none := by
  rw [catalogEntryCanon, h]
  dsimp only
  rw [hg]

theorem canon_found {R : List RatingRow} {Mv : List MovieRow} {m : ℕ}
    {mv : MovieRow} {g : String}
    (h : Mv.find? (fun mv => decide (mv.movieId = m)) = some mv)
    (hg : (splitGenres mv.genres).find? (fun g => decide (g ≠ noGenresSentinel)) = some g) :
    catalogEntryCanon R Mv m =
      if (R.find? fun rt => decide (rt.movieId = m)).isSome
      then some (mv.title, g) else none := by
  rw [catalogEntryCanon, h]
  dsimp only
  rw [hg]

theorem canon_cons_ne {R' : List RatingRow} {Mv : List MovieRow} {m : ℕ}
    {rt : RatingRow} (hrtm : rt.movieId ≠ m) :
    catalogEntryCanon (rt :: R') Mv m = catalogEntryCanon R' Mv m := by
  rcases hMv : Mv.find? (fun mv => decide (mv.movieId = m)) with _ | mv
  · rw [canon_movie_none hMv, canon_movie_none hMv]
  · rcases hg : (splitGenres mv.genres).find?
        (fun g => decide (g ≠ noGenresSentinel)) with _ | g
    · rw [canon_genre_none hMv hg, canon_genre_none hMv hg]
    · rw [canon_found hMv hg, canon_found hMv hg]
      have hd : (decide (rt.movieId = m)) = false := by simp [hrtm]
      have hfind : ((rt :: R').find? fun rt => decide (rt.movieId = m)) =
          (R'.find? fun rt => decide (rt.movieId = m)) := by
        simp only [List.find?_cons, hd]
      rw [hfind]

theorem lookupFeature_buildModel (R : List RatingRow) (Mv : List MovieRow)
    (m : ℕ) :
    lookupFeature (buildModel R Mv) m =
      ((dfGenres R Mv).find? fun r => decide (r.movieId = m)).map
        fun r => (⟨r.movieId, r.title,
          oneHot (vocabOf (dfGenres R Mv)) r.genre, none⟩ : FeatRow) := by
  have hfeat : (buildModel R Mv).features =
      movieFeaturesOf (vocabOf (dfGenres R Mv)) (dfGenres R Mv) := rfl
  rw [lookupFeature, hfeat, movieFeaturesOf, List.find?_map]
  have hcomp : ((fun fr : FeatRow => decide (fr.movieId = m)) ∘
      fun r : Row => (⟨r.movieId, r.title,
        oneHot (vocabOf (dfGenres R Mv)) r.genre, none⟩ : FeatRow)) =
      fun r : Row => decide (r.movieId = m) := rfl
  rw [hcomp, find?_dropDuplicatesBy (fun r : Row => r.movieId) _ ?_]
  intro a b hab
  have hab' : a.movieId = b.movieId := hab
  rw [hab']

theorem find?_filter_and (p q : Row → Bool) :
    ∀ l : List Row, (l.filter q).find? p = l.find? fun r => p r && q r := by
  intro l
  induction l with
  | nil => rfl
  | cons x xs ih =>
    rw [List.filter_cons]
    by_cases hq : q x = true
    · rw [if_pos hq]
      cases hp : p x with
      | true => simp [List.find?_cons, hp, hq]
      | false => simp [List.find?_cons, hp, hq, ih]
    · have hq' : q x = false := by
        revert hq
        cases q x <;> simp
      rw [if_neg (by rw [hq']; exact Bool.false_ne_true)]
      simp [List.find?_cons, hq', ih]

theorem find?_dfGenres_movie (R : List RatingRow) (Mv : List MovieRow) (m : ℕ) :
    (dfGenres R Mv).find? (fun r => decide (r.movieId = m)) =
      (rawRows R Mv).find? fun r =>
        decide (r.movieId = m) && decide (r.genre ≠ noGenresSentinel) := by
  rw [dfGenres, cleanRows, find?_filter_and, find?_dropDuplicatesBy id _ ?_]
  intro a b hab
  have hab' : a = b := hab
  rw [hab']

theorem find?_rawRows_canon (Mv : List MovieRow) (m : ℕ)
    (hn : (Mv.map fun mv => mv.movieId).Nodup) :
    ∀ R : List RatingRow,
    ((rawRows R Mv).find? fun r =>
        decide (r.movieId = m) && decide (r.genre ≠ noGenresSentinel)).map
      (fun r => (r.title, r.genre)) = catalogEntryCanon R Mv m := by
  intro R
  induction R with
  | nil =>
    rcases hMv : Mv.find? (fun mv => decide (mv.movieId = m)) with _ | mv
    · rw [canon_movie_none hMv]
      rfl
    · rcases hg : (splitGenres mv.genres).find?
          (fun g => decide (g ≠ noGenresSentinel)) with _ | g
      · rw [canon_genre_none hMv hg]
        rfl
      · rw [canon_found hMv hg]
        rfl
  | cons rt R' ih =>
    have hsplit : rawRows (rt :: R') Mv =
        ((Mv.filter fun mv => decide (mv.movieId = rt.movieId)).map fun mv =>
          (rt, mv)).flatMap explodeJoined ++ rawRows R' Mv := by
      rw [rawRows, mergeRows, List.flatMap_cons, List.flatMap_append]
      rfl
    rw [hsplit, List.find?_append, option_map_or, ih]
    by_cases hrtm : rt.movieId = m
    · rcases hMv : Mv.find? (fun mv => decide (mv.movieId = rt.movieId)) with _ | mv
      · have hfil := filter_movieId_eq_find?_toList hn rt.movieId
        rw [hMv] at hfil
        rw [hfil]
        have hMv' : Mv.find? (fun mv => decide (mv.movieId = m)) = none := by
          rw [← hrtm]
          exact hMv
        rw [canon_movie_none (R := rt :: R') hMv', canon_movie_none (R := R') hMv']
        rfl
      · have hfil := filter_movieId_eq_find?_toList hn rt.movieId
        rw [hMv] at hfil
        rw [hfil]
        have hMv' : Mv.find? (fun mv' => decide (mv'.movieId = m)) = some mv := by
          rw [← hrtm]
          exact hMv
        have hb : (((Option.some mv).toList.map fun mv => (rt, mv)).flatMap
            explodeJoined) = (splitGenres mv.genres).map (mkRow rt mv) := by
          simp [explodeJoined]
        rw [hb, List.find?_map]
        have hpred : ((fun r : Row => decide (r.movieId = m) &&
            decide (r.genre ≠ noGenresSentinel)) ∘ mkRow rt mv) =
            fun g => decide (g ≠ noGenresSentinel) := by
          funext g
          simp [mkRow, Function.comp, hrtm]
        rw [hpred, Option.map_map]
        rcases hg : (splitGenres mv.genres).find?
            (fun g => decide (g ≠ noGenresSentinel)) with _ | g
        · rw [canon_genre_none (R := rt :: R') hMv' hg,
            canon_genre_none (R := R') hMv' hg]
          rfl
        · rw [canon_found (R := rt :: R') hMv' hg, canon_found (R := R') hMv' hg]
          have hd : (decide (rt.movieId = m)) = true := by simp [hrtm]
          have hfind : ((rt :: R').find? fun rt => decide (rt.movieId = m)) = some rt := by
            simp only [List.find?_cons, hd]
          rw [hfind]
          rcases hR' : (R'.find? fun rt => decide (rt.movieId = m)) with _ | rt'
          · rfl
          · rfl
    · have hbn : (((Mv.filter fun mv => decide (mv.movieId = rt.movieId)).map
          (fun mv => (rt, mv))).flatMap explodeJoined).find?
          (fun r => decide (r.movieId = m) && decide (r.genre ≠ noGenresSentinel)) =
          none := by
        rw [List.find?_eq_none]
        intro r hr
        obtain ⟨p, hp, hrp⟩ := List.mem_flatMap.1 hr
        obtain ⟨mv, hmv, rfl⟩ := List.mem_map.1 hp
        obtain ⟨g, hg, rfl⟩ := List.mem_map.1 hrp
        simp [mkRow, hrtm]
      rw [hbn, canon_cons_ne hrtm]
      rfl

theorem catalogEntryCanon_eq_of_perm {r₁ r₂ : List RatingRow}
    {m₁ m₂ : List MovieRow} (hn : (m₁.map fun mv => mv.movieId).Nodup)
    (hr : r₁.Perm r₂) (hm : m₁.Perm m₂) (m : ℕ) :
    catalogEntryCanon r₁ m₁ m = catalogEntryCanon r₂ m₂ m := by
  have hfind := find?_movieId_eq_of_perm hn hm m
  rcases hMv : m₂.find? (fun mv => decide (mv.movieId = m)) with _ | mv
  · rw [canon_movie_none (hfind.trans hMv), canon_movie_none hMv]
  · rcases hg : (splitGenres mv.genres).find?
        (fun g => decide (g ≠ noGenresSentinel)) with _ | g
    · rw [canon_genre_none (hfind.trans hMv) hg, canon_genre_none hMv hg]
    · rw [canon_found (hfind.trans hMv) hg, canon_found hMv hg]
      have hiff : ((r₁.find? fun rt => decide (rt.movieId = m)).isSome = true) ↔
          ((r₂.find? fun rt => decide (rt.movieId = m)).isSome = true) := by
        rw [List.find?_isSome, List.find?_isSome]
        constructor
        · rintro ⟨x, hx, hpx⟩
          exact ⟨x, hr.mem_iff.1 hx, hpx⟩
        · rintro ⟨x, hx, hpx⟩
          exact ⟨x, hr.mem_iff.2 hx, hpx⟩
      exact if_congr hiff rfl rfl

theorem lookupFeature_canon (R : List RatingRow) (Mv : List MovieRow) (m : ℕ)
    (hn : (Mv.map fun mv => mv.movieId).Nodup) :
    lookupFeature (buildModel R Mv) m =
      (catalogEntryCanon R Mv m).map fun pr =>
        (⟨m, pr.1, oneHot (vocabOf (dfGenres R Mv)) pr.2, none⟩ : FeatRow) := by
  rw [lookupFeature_buildModel, find?_dfGenres_movie, ← find?_rawRows_canon Mv m hn R,
    Option.map_map]
  rcases hfind : (rawRows R Mv).find? (fun r =>
      decide (r.movieId = m) && decide (r.genre ≠ noGenresSentinel)) with _ | r
  · rw [hfind]
    rfl
  · rw [hfind]
    have hrm : r.movieId = m := by
      have hp := List.find?_some (p := fun r : Row =>
        decide (r.movieId = m) && decide (r.genre ≠ noGenresSentinel)) hfind
      simp only [Bool.and_eq_true, decide_eq_true_eq] at hp
      exact hp.1
    simp only [Option.map_some', Function.comp_apply]
    rw [hrm]

/-! ### Sums over the vocabulary -/

theorem sum_map_div (l : List String) (f : String → ℚ) (c : ℚ) :
    (l.map fun g => f g / c).sum = (l.map f).sum / c := by
  induction l with
  | nil => simp
  | cons x xs ih => simp [ih, add_div]

theorem sum_map_ite_single (keys : List String) (x : String) (c : ℚ)
    (hn : keys.Nodup) (hx : x ∈ keys) :
    (keys.map fun g => if x = g then c else 0).sum = c := by
  induction keys with
  | nil => cases hx
  | cons k ks ih =>
    rcases List.mem_cons.1 hx with rfl | hx'
    · have hzero : ∀ g ∈ ks, (if x = g then c else 0) = 0 := by
        intro g hg
        rw [if_neg]
        rintro rfl
        exact (List.nodup_cons.1 hn).1 hg
      have hz : (List.map (fun g => if x = g then c else 0) ks).sum = 0 := by
        refine List.sum_eq_zero ?_
        intro y hy
        obtain ⟨g, hg, rfl⟩ := List.mem_map.1 hy
        exact hzero g hg
      simp only [List.map_cons, List.sum_cons]
      rw [if_pos trivial, hz, add_zero]
    · have hk : x ≠ k := by
        rintro rfl
        exact (List.nodup_cons.1 hn).1 hx'
      simp only [List.map_cons, List.sum_cons, if_neg hk]
      rw [ih (List.nodup_cons.1 hn).2 hx', zero_add]

theorem sum_fiberwise_ratingSum (keys : List String) (l : List Row)
    (hn : keys.Nodup) (hcov : ∀ r ∈ l, r.genre ∈ keys) :
    (keys.map fun g => ratingSum (l.filter fun r => decide (r.genre = g))).sum =
      ratingSum l := by
  induction l with
  | nil =>
    simp only [List.filter_nil, ratingSum, List.map_nil, List.sum_nil]
    rw [List.sum_eq_zero]
    intro y hy
    obtain ⟨g, -, rfl⟩ := List.mem_map.1 hy
    rfl
  | cons r l ih =>
    have hcov' : ∀ x ∈ l, x.genre ∈ keys := fun x hx =>
      hcov x (List.mem_cons_of_mem _ hx)
    have hgr : r.genre ∈ keys := hcov r (List.mem_cons_self _ _)
    have hpt : ∀ g ∈ keys, ratingSum ((r :: l).filter fun x => decide (x.genre = g)) =
        (if r.genre = g then r.rating else 0) +
          ratingSum (l.filter fun x => decide (x.genre = g)) := by
      intro g _
      rw [List.filter_cons]
      by_cases hg : r.genre = g
      · rw [if_pos (by simp [hg]), if_pos hg]
        simp [ratingSum]
      · rw [if_neg (by simp [hg]), if_neg hg, zero_add]
    rw [List.map_congr_left hpt, List.sum_map_add,
      sum_map_ite_single keys r.genre r.rating hn hgr, ih hcov']
    simp [ratingSum]

/-! ### The §8 scenario, evaluated -/

/-- The §8 scenario model, fully evaluated: note that the profile of user 1
is `[2/5, 3/5]` (each rating weighted once per exploded (movie, genre) row)
and that the catalog vector of movie 1 is `[1, 0]` (only its first genre
survives `drop_duplicates("movieId")` on the exploded frame). -/
theorem exModel_eq : exModel = {
    rows := [⟨1, 1, 4, "A", "Action"⟩, ⟨1, 1, 4, "A", "Comedy"⟩,
             ⟨1, 2, 2, "B", "Comedy"⟩, ⟨2, 3, 5, "C", "Action"⟩]
    vocab := ["Action", "Comedy"]
    features := [⟨1, "A", [1, 0], none⟩, ⟨2, "B", [0, 1], none⟩, ⟨3, "C", [1, 0], none⟩]
    profiles := [(1, [2/5, 3/5]), (2, [1, 0])] } := by
  norm_num +decide [exModel, buildModel, dfGenres, cleanRows, rawRows, mergeRows,
    explodeJoined, mkRow, splitGenres, splitGenresAux, dropDuplicatesBy,
    dropDuplicatesByAux, noGenresSentinel, vocabOf, movieFeaturesOf, oneHot,
    userIdsOf, profileVecOf, profileComp, userRowsOf, ratingSum, exRatings, exMovies,
    List.insertionSort, List.orderedInsert, List.filter_cons, List.flatMap_cons,
    String.ext_iff]

/-! ### Claims -/

/-- C2: the claim states that the catalog's genre vector of a surviving movie
has a 1 in the component of every genre of the movie.  The code violates it:
`movie_features` keeps only the first exploded row per movie id, so movie 1
(genres Action and Comedy, vocabulary `["Action", "Comedy"]`) gets the vector
`[1, 0]` — the Comedy component is 0 although Comedy is in its genre set. -/
theorem c2_catalog_vector_keeps_only_first_genre :
    exModel.vocab = ["Action", "Comedy"] ∧
    "Comedy" ∈ genresOf exMovies 1 ∧
    lookupFeature exModel 1 =
      some { movieId := 1, title := "A", vec := [1, 0], sim := none } := by
  refine ⟨?_, ?_, ?_⟩
  · rw [exModel_eq]
  · norm_num +decide [genresOf, exMovies, splitGenres, splitGenresAux,
      noGenresSentinel, List.find?_cons, List.filter_cons, String.ext_iff]
  · rw [exModel_eq]
    norm_num [lookupFeature, List.find?_cons]

/-- C5: the claim that `recommend` leaves the catalog unchanged is false:
`recommend_movies` assigns the `similarity` column of the shared
`movie_features` frame, so the features after the call differ from the
features before it. -/
theorem c5_recommend_mutates_features :
    ∃ out M', recommend exModel 2 1 = Except.ok (out, M') ∧
      M'.features ≠ exModel.features := by
  refine ⟨_, _, rfl, fun h => ?_⟩
  norm_num +decide [exModel, buildModel, dfGenres, cleanRows, rawRows, mergeRows,
    explodeJoined, mkRow, splitGenres, splitGenresAux, dropDuplicatesBy,
    dropDuplicatesByAux, noGenresSentinel, vocabOf, movieFeaturesOf, oneHot,
    userIdsOf, profileVecOf, profileComp, userRowsOf, ratingSum, exRatings, exMovies,
    scoreRows, lookupProfile, dotQ, normSq,
    List.insertionSort, List.orderedInsert, List.filter_cons, List.flatMap_cons,
    List.find?_cons, String.ext_iff] at h

/-- C5 (amended): a successful `recommend` call leaves `df_genres`, the
vocabulary and the user profiles unchanged, and changes `movie_features`
exactly by overwriting the `similarity` column with the queried user's
scores; the id, title and genre columns are untouched. -/
theorem c5_frame_amended :
    ∀ (M : Model) (u n : ℕ) (p : List ℚ) (out : List FeatRow) (M' : Model),
      lookupProfile M u = some p → recommend M u n = Except.ok (out, M') →
      M'.rows = M.rows ∧ M'.vocab = M.vocab ∧ M'.profiles = M.profiles ∧
      M'.features = scoreRows p M.features ∧
      M'.features.map (fun fr => (fr.movieId, fr.title, fr.vec)) =
        M.features.map (fun fr => (fr.movieId, fr.title, fr.vec)) := by
  intro M u n p out M' hp hrec
  rw [recommend, hp] at hrec
  obtain ⟨-, rfl⟩ : out = _ ∧ M' = { M with features := scoreRows p M.features } := by
    injection hrec with h1
    injection h1 with h2 h3
    exact ⟨h2.symm, h3.symm⟩
  refine ⟨rfl, rfl, rfl, rfl, ?_⟩
  simp [scoreRows, List.map_map]

/-- C5 (amended), witnessed at the §8 scenario for user 2. -/
theorem c5_frame_witness :
    ∃ (p : List ℚ) (out : List FeatRow) (M' : Model),
      lookupProfile exModel 2 = some p ∧
      recommend exModel 2 1 = Except.ok (out, M') ∧
      (M'.rows = exModel.rows ∧ M'.vocab = exModel.vocab ∧
       M'.profiles = exModel.profiles ∧
       M'.features = scoreRows p exModel.features ∧
       M'.features.map (fun fr => (fr.movieId, fr.title, fr.vec)) =
         exModel.features.map (fun fr => (fr.movieId, fr.title, fr.vec))) := by
  have hp : lookupProfile exModel 2 = some [1, 0] := by
    rw [exModel_eq]; norm_num [lookupProfile, List.find?_cons]
  exact ⟨[1, 0], _, _, hp, rfl, c5_frame_amended exModel 2 1 [1, 0] _ _ hp rfl⟩

/-- C3: the claim that equal scores are ordered by ascending movie id is
false.  In the tie scenario, movies 3 and 5 have identical genre vectors, so
for user 2 both score `simVal (1, 1, 1)`; the catalog lists movie 3 before
movie 5, and `sort_values(ascending=False)` (stable ascending sort, then
reversal) returns them as `[5, 3]` — descending ids, not ascending. -/
theorem c3_tie_order_counterexample :
    ∃ out M', recommend (buildModel tieRatings tieMovies) 2 5 = Except.ok (out, M') ∧
      out.map (fun fr => fr.movieId) = [5, 3] ∧
      out.map (fun fr => fr.sim) = [some (1, 1, 1), some (1, 1, 1)] := by
  refine ⟨_, _, rfl, ?_, ?_⟩ <;>
  norm_num +decide [buildModel, dfGenres, cleanRows, rawRows, mergeRows,
    explodeJoined, mkRow, splitGenres, splitGenresAux, dropDuplicatesBy,
    dropDuplicatesByAux, noGenresSentinel, vocabOf, movieFeaturesOf, oneHot,
    userIdsOf, profileVecOf, profileComp, userRowsOf, ratingSum,
    tieRatings, tieMovies, scoreRows, lookupProfile, ratedBy, dotQ, normSq,
    simLeRow, simLeB, List.insertionSort, List.orderedInsert, List.filter_cons,
    List.flatMap_cons, List.find?_cons, String.ext_iff]

/-- C3 (amended): a successful `recommend(u, topN)` call returns a sequence
sorted by similarity score descending whose length is
`min topN (number of catalog movies not already rated by u)`; equal scores,
however, are not ordered by ascending movie id (they appear in reverse
catalog order, see the counterexample). -/
theorem c3_sorted_and_length :
    ∀ (M : Model) (u n : ℕ) (p : List ℚ) (out : List FeatRow) (M' : Model),
      lookupProfile M u = some p → recommend M u n = Except.ok (out, M') →
      List.Sorted (fun a b => simOf b ≤ simOf a) out ∧
      out.length = min n ((M.features.filter fun fr =>
        decide (fr.movieId ∉ ratedBy M u)).length) := by
  intro M u n p out M' hp hrec
  rw [recommend, hp] at hrec
  obtain ⟨rfl, -⟩ : out = _ ∧ M' = { M with features := scoreRows p M.features } := by
    injection hrec with h1
    injection h1 with h2 h3
    exact ⟨h2.symm, h3.symm⟩
  constructor
  · have hsorted : List.Sorted simLeRow
        (List.insertionSort simLeRow
          ((scoreRows p M.features).filter fun fr =>
            decide (fr.movieId ∉ ratedBy M u))) := by
      haveI : IsTotal FeatRow simLeRow := ⟨simLeRow_total⟩
      haveI : IsTrans FeatRow simLeRow := ⟨fun _ _ _ => simLeRow_trans⟩
      exact List.sorted_insertionSort simLeRow _
    have hrev : List.Sorted (fun a b => simLeRow b a)
        ((List.insertionSort simLeRow
          ((scoreRows p M.features).filter fun fr =>
            decide (fr.movieId ∉ ratedBy M u))).reverse) :=
      List.pairwise_reverse.2 hsorted
    have htake := hrev.sublist (List.take_sublist n _)
    exact htake.imp fun h => (simLeRow_iff _ _).1 h
  · rw [List.length_take, List.length_reverse,
      (List.perm_insertionSort simLeRow _).length_eq]
    have hfilter : ((scoreRows p M.features).filter fun fr =>
        decide (fr.movieId ∉ ratedBy M u)).length =
        ((M.features.filter fun fr => decide (fr.movieId ∉ ratedBy M u))).length := by
      rw [scoreRows, List.filter_map, List.length_map]
      rfl
    rw [hfilter]

/-- C3 (amended), witnessed at the §8 scenario for user 2 with `topN = 1`. -/
theorem c3_sorted_and_length_witness :
    ∃ (p : List ℚ) (out : List FeatRow) (M' : Model),
      lookupProfile exModel 2 = some p ∧
      recommend exModel 2 1 = Except.ok (out, M') ∧
      List.Sorted (fun a b => simOf b ≤ simOf a) out ∧
      out.length = min 1 ((exModel.features.filter fun fr =>
        decide (fr.movieId ∉ ratedBy exModel 2)).length) := by
  have hp : lookupProfile exModel 2 = some [1, 0] := by
    rw [exModel_eq]; norm_num [lookupProfile, List.find?_cons]
  exact ⟨[1, 0], _, _, hp, rfl,
    (c3_sorted_and_length exModel 2 1 [1, 0] _ _ hp rfl).1,
    (c3_sorted_and_length exModel 2 1 [1, 0] _ _ hp rfl).2⟩

/-- C7: `predictRating` returns exactly the cosine similarity of the user's
profile with the movie's catalog vector, multiplied by the sum S of the
profile's components, unclipped; in particular (second conjunct) in the
low-ratings scenario the prediction of user 1 for movie 2 exceeds every
observed rating. -/
theorem c7_predict_formula :
    (∀ (M : Model) (u m : ℕ) (p : List ℚ) (fr : FeatRow),
      lookupProfile M u = some p → lookupFeature M m = some fr →
      predictRating M u m = Except.ok (cosineSim p fr.vec * (p.sum : ℝ))) ∧
    (∃ x : ℝ, predictRating (buildModel lowRatings lowMovies) 1 2 = Except.ok x ∧
      ∀ rt ∈ lowRatings, (rt.rating : ℝ) < x) := by
  constructor
  · intro M u m p fr hp hf
    simp [predictRating, hp, hf]
  · have hM : buildModel lowRatings lowMovies = {
        rows := [⟨1, 1, 1/2, "A", "Action"⟩, ⟨2, 2, 1/2, "B", "Action"⟩]
        vocab := ["Action"]
        features := [⟨1, "A", [1], none⟩, ⟨2, "B", [1], none⟩]
        profiles := [(1, [1]), (2, [1])] } := by
      norm_num +decide [buildModel, dfGenres, cleanRows, rawRows, mergeRows,
        explodeJoined, mkRow, splitGenres, splitGenresAux, dropDuplicatesBy,
        dropDuplicatesByAux, noGenresSentinel, vocabOf, movieFeaturesOf, oneHot,
        userIdsOf, profileVecOf, profileComp, userRowsOf, ratingSum,
        lowRatings, lowMovies, List.insertionSort, List.orderedInsert,
        List.filter_cons, List.flatMap_cons, String.ext_iff]
    refine ⟨1, ?_, ?_⟩
    · rw [hM]
      have hp : lookupProfile (Model.mk
          [⟨1, 1, 1/2, "A", "Action"⟩, ⟨2, 2, 1/2, "B", "Action"⟩] ["Action"]
          [⟨1, "A", [1], none⟩, ⟨2, "B", [1], none⟩]
          [(1, [1]), (2, [1])]) 1 = some [1] := by
        norm_num [lookupProfile, List.find?_cons]
      have hf : lookupFeature (Model.mk
          [⟨1, 1, 1/2, "A", "Action"⟩, ⟨2, 2, 1/2, "B", "Action"⟩] ["Action"]
          [⟨1, "A", [1], none⟩, ⟨2, "B", [1], none⟩]
          [(1, [1]), (2, [1])]) 2 = some ⟨2, "B", [1], none⟩ := by
        norm_num [lookupFeature, List.find?_cons]
      have hcos : cosineSim [1] [(1 : ℚ)] = 1 := by
        have h1 : dotQ [(1 : ℚ)] [(1 : ℚ)] = 1 := by norm_num [dotQ]
        have h2 : normSq [(1 : ℚ)] = 1 := by norm_num [normSq, dotQ]
        rw [cosineSim, h1, h2, simVal_of_pos (by norm_num) (by norm_num)]
        norm_num
      simp only [predictRating, hp, hf]
      norm_num [hcos]
    · intro rt hrt
      have hr : rt.rating = 1/2 := by
        simp only [lowRatings, List.mem_cons, List.not_mem_nil, or_false] at hrt
        rcases hrt with rfl | rfl <;> rfl
      rw [hr]
      norm_num

/-- C7, witnessed: the general formula applied at the low-ratings scenario. -/
theorem c7_predict_witness :
    predictRating (buildModel lowRatings lowMovies) 1 2 =
      Except.ok (cosineSim [1] [1] * (([(1 : ℚ)].sum : ℚ) : ℝ)) := by
  have hp : lookupProfile (buildModel lowRatings lowMovies) 1 = some [1] := by
    norm_num +decide [buildModel, dfGenres, cleanRows, rawRows, mergeRows,
      explodeJoined, mkRow, splitGenres, splitGenresAux, dropDuplicatesBy,
      dropDuplicatesByAux, noGenresSentinel, vocabOf, movieFeaturesOf, oneHot,
      userIdsOf, profileVecOf, profileComp, userRowsOf, ratingSum,
      lowRatings, lowMovies, lookupProfile, List.find?_cons,
      List.insertionSort, List.orderedInsert,
      List.filter_cons, List.flatMap_cons, String.ext_iff]
  have hf : lookupFeature (buildModel lowRatings lowMovies) 2 =
      some ⟨2, "B", [1], none⟩ := by
    norm_num +decide [buildModel, dfGenres, cleanRows, rawRows, mergeRows,
      explodeJoined, mkRow, splitGenres, splitGenresAux, dropDuplicatesBy,
      dropDuplicatesByAux, noGenresSentinel, vocabOf, movieFeaturesOf, oneHot,
      userIdsOf, profileVecOf, profileComp, userRowsOf, ratingSum,
      lowRatings, lowMovies, lookupFeature, List.find?_cons,
      List.insertionSort, List.orderedInsert,
      List.filter_cons, List.flatMap_cons, String.ext_iff]
  exact c7_predict_formula.1 _ 1 2 [1] ⟨2, "B", [1], none⟩ hp hf

/-- Cauchy-Schwarz for the list dot product, by induction on the vectors. -/
theorem dotQ_sq_le (a : List ℚ) : ∀ b : List ℚ,
    dotQ a b ^ 2 ≤ normSq a * normSq b := by
  induction a with
  | nil => intro b; simp [dotQ, normSq]
  | cons x xs ih =>
    intro b
    cases b with
    | nil => simp [dotQ, normSq]
    | cons y ys =>
      have hd : dotQ (x :: xs) (y :: ys) = x * y + dotQ xs ys := by
        simp [dotQ, List.zipWith_cons_cons]
      have hA : normSq (x :: xs) = x * x + normSq xs := by
        simp [normSq, dotQ, List.zipWith_cons_cons]
      have hB : normSq (y :: ys) = y * y + normSq ys := by
        simp [normSq, dotQ, List.zipWith_cons_cons]
      have h1 := ih ys
      have hA0 := normSq_nonneg xs
      have hB0 := normSq_nonneg ys
      rw [hd, hA, hB]
      rcases eq_or_lt_of_le hB0 with hB' | hB'
      · have hd0 : dotQ xs ys = 0 := by nlinarith [sq_nonneg (dotQ xs ys)]
        rw [hd0, ← hB']
        nlinarith [mul_nonneg hA0 (mul_self_nonneg y)]
      · nlinarith [sq_nonneg (x * normSq ys - y * dotQ xs ys),
          mul_nonneg (mul_self_nonneg y) (sub_nonneg.2 h1),
          mul_nonneg hB'.le (sub_nonneg.2 h1)]

/-- C9: the similarity function is total, always lands in `[-1, 1]`, and
returns 0 (by the sklearn zero-norm convention) whenever either vector has
zero magnitude — no division error can occur. -/
theorem c9_similarity_bounds :
    ∀ a b : List ℚ,
      ((normSq a = 0 ∨ normSq b = 0) → cosineSim a b = 0) ∧
      -1 ≤ cosineSim a b ∧ cosineSim a b ≤ 1 := by
  intro a b
  constructor
  · intro h
    rw [cosineSim, simVal, if_pos h]
  · by_cases hpos : 0 < normSq a ∧ 0 < normSq b
    · rw [cosineSim, simVal_of_pos hpos.1 hpos.2]
      have hc := sqrt_mul_sqrt_pos hpos.1 hpos.2
      have hcs : (dotQ a b : ℝ) ^ 2 ≤ (normSq a : ℝ) * (normSq b : ℝ) := by
        exact_mod_cast dotQ_sq_le a b
      have habs : |(dotQ a b : ℝ)| ≤
          Real.sqrt (normSq a : ℝ) * Real.sqrt (normSq b : ℝ) := by
        have h1 : |(dotQ a b : ℝ)| = Real.sqrt ((dotQ a b : ℝ) ^ 2) :=
          (Real.sqrt_sq_eq_abs _).symm
        rw [h1, ← Real.sqrt_mul (by exact_mod_cast hpos.1.le)]
        exact Real.sqrt_le_sqrt hcs
      have hfrac : |(dotQ a b : ℝ) /
          (Real.sqrt (normSq a : ℝ) * Real.sqrt (normSq b : ℝ))| ≤ 1 := by
        rw [abs_div, abs_of_pos hc]
        exact (div_le_one hc).2 habs
      exact abs_le.1 hfrac
    · rw [cosineSim, simVal_of_not_pos hpos]
      norm_num

/-- C9, witnessed: the zero vector scores 0 against `[3, 4]`, within
bounds. -/
theorem c9_similarity_witness :
    cosineSim [0, 0] [3, 4] = 0 ∧
    -1 ≤ cosineSim [0, 0] [3, 4] ∧ cosineSim [0, 0] [3, 4] ≤ 1 :=
  ⟨(c9_similarity_bounds [0, 0] [3, 4]).1 (Or.inl (by norm_num [normSq, dotQ])),
   (c9_similarity_bounds [0, 0] [3, 4]).2⟩

/-- C1: the claimed profile formula (denominator `Σ r_i`, one term per rated
movie) is false on the code.  At the spec's own scenario the profile of user
1 is `[2/5, 3/5]`, not the claimed `[4/6, 6/6] = [2/3, 1]`: the code divides
by the rating sum of the exploded frame, where each rating is counted once
per (movie, genre) pair. -/
theorem c1_profile_value_counterexample :
    lookupProfile exModel 1 = some [2/5, 3/5] ∧
    lookupProfile exModel 1 ≠ some [2/3, 1] := by
  have h : lookupProfile exModel 1 = some [2/5, 3/5] := by
    rw [exModel_eq]
    norm_num [lookupProfile, List.find?_cons]
  refine ⟨h, ?_⟩
  rw [h]
  intro hc
  simp only [Option.some.injEq, List.cons.injEq] at hc
  exact absurd hc.1 (by norm_num)

/-- C1 (amended): for a user `u` whose (movie, rating) pairs are distinct and
with distinct movie ids in the movies relation, every profile component
equals `(Σ_i r_i·[g ∈ G_i]) / (Σ_i r_i·|G_i|)`, where `G_i` is the set of
distinct non-sentinel genres of the i-th rated movie — the denominator
counts each rating once per (movie, genre) pair, not once per movie. -/
theorem c1_profile_weighted_per_genre_row :
    ∀ (ratings : List RatingRow) (movies : List MovieRow) (u : ℕ) (g : String),
      ((movies.map fun mv => mv.movieId).Nodup) →
      (((ratings.filter fun rt => decide (rt.userId = u)).map
          fun rt => (rt.movieId, rt.rating)).Nodup) →
      profileComp (dfGenres ratings movies) u g =
        ((ratings.filter fun rt => decide (rt.userId = u)).map fun rt =>
          if g ∈ genresOf movies rt.movieId then rt.rating else 0).sum /
        ((ratings.filter fun rt => decide (rt.userId = u)).map fun rt =>
          rt.rating * ((genresOf movies rt.movieId).dedup.length : ℚ)).sum := by
  intro R Mv u g hMv hu
  have hnodupRows : (userRowsOf (dfGenres R Mv) u).Nodup :=
    (nodup_dfGenres R Mv).filter _
  have hnodupEv : (R.filter fun rt => decide (rt.userId = u)).Nodup :=
    List.Nodup.of_map _ hu
  have hset : (userRowsOf (dfGenres R Mv) u).toFinset =
      (R.filter fun rt => decide (rt.userId = u)).toFinset.biUnion
        (fun rt => ((genresOf Mv rt.movieId).toFinset).image (evRow Mv rt)) := by
    ext r
    simp only [List.mem_toFinset, Finset.mem_biUnion, Finset.mem_image]
    rw [mem_userRows_dfGenres hMv]
    constructor
    · rintro ⟨rt, hrt, g', hg', rfl⟩
      exact ⟨rt, hrt, g', hg', rfl⟩
    · rintro ⟨rt, hrt, g', hg', rfl⟩
      exact ⟨rt, hrt, g', hg', rfl⟩
  have hdisj : (((R.filter fun rt => decide (rt.userId = u)).toFinset : Set RatingRow)).PairwiseDisjoint
      (fun rt => ((genresOf Mv rt.movieId).toFinset).image (evRow Mv rt)) := by
    intro rt₁ h₁ rt₂ h₂ hne
    refine Finset.disjoint_left.2 ?_
    intro a ha₁ ha₂
    obtain ⟨g₁, -, rfl⟩ := Finset.mem_image.1 ha₁
    obtain ⟨g₂, -, heq⟩ := Finset.mem_image.1 ha₂
    have hpair : (rt₂.movieId, rt₂.rating) = (rt₁.movieId, rt₁.rating) := by
      have h1 : (evRow Mv rt₂ g₂).movieId = (evRow Mv rt₁ g₁).movieId := by rw [heq]
      have h2 : (evRow Mv rt₂ g₂).rating = (evRow Mv rt₁ g₁).rating := by rw [heq]
      simp only [evRow] at h1 h2
      rw [Prod.mk.injEq]
      exact ⟨h1, h2⟩
    have hmem₁ : rt₁ ∈ R.filter fun rt => decide (rt.userId = u) := by
      simpa using h₁
    have hmem₂ : rt₂ ∈ R.filter fun rt => decide (rt.userId = u) := by
      simpa using h₂
    exact hne (List.inj_on_of_nodup_map hu hmem₁ hmem₂ hpair.symm)
  have hinj : ∀ rt : RatingRow, ∀ x ∈ (genresOf Mv rt.movieId).toFinset,
      ∀ y ∈ (genresOf Mv rt.movieId).toFinset,
      evRow Mv rt x = evRow Mv rt y → x = y := by
    intro rt x _ y _ hxy
    exact congrArg Row.genre hxy
  have hN : ratingSum ((userRowsOf (dfGenres R Mv) u).filter
        fun r => decide (r.genre = g)) =
      ((R.filter fun rt => decide (rt.userId = u)).map fun rt =>
        if g ∈ genresOf Mv rt.movieId then rt.rating else 0).sum := by
    have hA : (userRowsOf (dfGenres R Mv) u).toFinset.sum
        (fun r => if (decide (r.genre = g)) = true then r.rating else 0) =
        ((userRowsOf (dfGenres R Mv) u).map
          fun r => if (decide (r.genre = g)) = true then r.rating else 0).sum :=
      List.sum_toFinset _ hnodupRows
    rw [ratingSum_filter_eq_sum_ite, ← hA, hset, Finset.sum_biUnion hdisj]
    have hInner : ∀ rt ∈ (R.filter fun rt => decide (rt.userId = u)).toFinset,
        (∑ r ∈ ((genresOf Mv rt.movieId).toFinset).image (evRow Mv rt),
          if (decide (r.genre = g)) = true then r.rating else 0) =
        if g ∈ genresOf Mv rt.movieId then rt.rating else 0 := by
      intro rt _
      rw [Finset.sum_image (hinj rt)]
      have hsummand : ∀ g' ∈ (genresOf Mv rt.movieId).toFinset,
          (if (decide ((evRow Mv rt g').genre = g)) = true
            then (evRow Mv rt g').rating else 0) =
          if g' = g then rt.rating else 0 := by
        intro g' _
        simp [evRow]
      rw [Finset.sum_congr rfl hsummand, Finset.sum_ite_eq' _ g fun _ => rt.rating]
      exact if_congr List.mem_toFinset rfl rfl
    rw [Finset.sum_congr rfl hInner, List.sum_toFinset _ hnodupEv]
  have hD : ratingSum (userRowsOf (dfGenres R Mv) u) =
      ((R.filter fun rt => decide (rt.userId = u)).map fun rt =>
        rt.rating * ((genresOf Mv rt.movieId).dedup.length : ℚ)).sum := by
    have hA : (userRowsOf (dfGenres R Mv) u).toFinset.sum (fun r => r.rating) =
        ((userRowsOf (dfGenres R Mv) u).map fun r => r.rating).sum :=
      List.sum_toFinset _ hnodupRows
    rw [ratingSum, ← hA, hset, Finset.sum_biUnion hdisj]
    have hInner : ∀ rt ∈ (R.filter fun rt => decide (rt.userId = u)).toFinset,
        (∑ r ∈ ((genresOf Mv rt.movieId).toFinset).image (evRow Mv rt), r.rating) =
        rt.rating * ((genresOf Mv rt.movieId).dedup.length : ℚ) := by
      intro rt _
      rw [Finset.sum_image (hinj rt)]
      have hsummand : ∀ g' ∈ (genresOf Mv rt.movieId).toFinset,
          (evRow Mv rt g').rating = rt.rating := fun g' _ => rfl
      rw [Finset.sum_congr rfl hsummand, Finset.sum_const, List.card_toFinset,
        nsmul_eq_mul, mul_comm]
    rw [Finset.sum_congr rfl hInner, List.sum_toFinset _ hnodupEv]
  rw [profileComp, hN, hD]

/-- C1 (amended), witnessed at the §8 scenario: user 1's Action component. -/
theorem c1_profile_weighted_witness :
    profileComp (dfGenres exRatings exMovies) 1 "Action" =
      ((exRatings.filter fun rt => decide (rt.userId = 1)).map fun rt =>
        if "Action" ∈ genresOf exMovies rt.movieId then rt.rating else 0).sum /
      ((exRatings.filter fun rt => decide (rt.userId = 1)).map fun rt =>
        rt.rating * ((genresOf exMovies rt.movieId).dedup.length : ℚ)).sum :=
  c1_profile_weighted_per_genre_row exRatings exMovies 1 "Action"
    (by decide) (by decide)

/-- C4: no movie id appearing in a user's raw rating events is ever returned
by `recommend` for that user.  Rated movies that survive cleaning are in the
exclusion list computed from `df_genres`; rated movies that were dropped
(sentinel genre, or a dangling movie id) are not in the catalog at all, so
they cannot be returned either. -/
theorem c4_rated_movies_never_recommended :
    ∀ (ratings : List RatingRow) (movies : List MovieRow) (u n m : ℕ)
      (out : List FeatRow) (M' : Model),
      m ∈ (ratings.filter fun rt => decide (rt.userId = u)).map (fun rt => rt.movieId) →
      recommend (buildModel ratings movies) u n = Except.ok (out, M') →
      m ∉ out.map fun fr => fr.movieId := by
  intro R Mv u n m out M' hm hrec
  rcases hp : lookupProfile (buildModel R Mv) u with _ | p
  · rw [recommend, hp] at hrec
    exact absurd hrec (by simp)
  rw [recommend, hp] at hrec
  obtain ⟨rfl, -⟩ : out = _ ∧ M' = _ := by
    injection hrec with h1
    injection h1 with h2 h3
    exact ⟨h2.symm, h3.symm⟩
  intro hcon
  obtain ⟨fr, hfr, hfrm⟩ := List.mem_map.1 hcon
  have hfr2 : fr ∈ (scoreRows p (buildModel R Mv).features).filter
      fun x => decide (x.movieId ∉ ratedBy (buildModel R Mv) u) := by
    have h1 := (List.take_sublist n _).subset hfr
    have h2 := List.mem_reverse.1 h1
    exact (List.mem_insertionSort simLeRow).1 h2
  have hnotrated : m ∉ ratedBy (buildModel R Mv) u := by
    have hb := (List.mem_filter.1 hfr2).2
    rw [hfrm] at hb
    simpa using hb
  obtain ⟨rt, hrtmem, hrtm⟩ := List.mem_map.1 hm
  have hrtu : rt.userId = u := by
    have := (List.mem_filter.1 hrtmem).2
    simpa using this
  have hrtR : rt ∈ R := (List.mem_filter.1 hrtmem).1
  obtain ⟨fr₀, hfr₀, rfl⟩ := List.mem_map.1 (List.mem_filter.1 hfr2).1
  have hfeat : (buildModel R Mv).features =
      movieFeaturesOf (vocabOf (dfGenres R Mv)) (dfGenres R Mv) := rfl
  rw [hfeat, movieFeaturesOf] at hfr₀
  obtain ⟨r₁, hr₁, rfl⟩ := List.mem_map.1 hfr₀
  have hr₁rows : r₁ ∈ dfGenres R Mv := mem_of_mem_dropDuplicatesBy hr₁
  have hr₁m : r₁.movieId = m := by simpa using hfrm
  obtain ⟨hraw, hgen⟩ := mem_dfGenres.1 hr₁rows
  obtain ⟨rt', hrt', mv, hmv, hid, g, hg, hreq⟩ := mem_rawRows.1 hraw
  have hmvid : mv.movieId = m := by
    rw [hid]
    have : r₁.movieId = rt'.movieId := by rw [hreq]; rfl
    rw [← this, hr₁m]
  have hgr : r₁.genre = g := by rw [hreq]; rfl
  have hrowmem : mkRow rt mv g ∈ dfGenres R Mv := by
    rw [mem_dfGenres]
    refine ⟨mem_rawRows.2 ⟨rt, hrtR, mv, hmv, by rw [hmvid, hrtm], g, hg, rfl⟩, ?_⟩
    show g ≠ noGenresSentinel
    rw [← hgr]
    exact hgen
  have hrows : (buildModel R Mv).rows = dfGenres R Mv := rfl
  have hmem : m ∈ ratedBy (buildModel R Mv) u := by
    rw [ratedBy, hrows]
    refine List.mem_map.2 ⟨mkRow rt mv g, List.mem_filter.2 ⟨hrowmem, ?_⟩, ?_⟩
    · simp [mkRow, hrtu]
    · simp [mkRow, hrtm]
  exact hnotrated hmem

/-- C4, witnessed at the §8 scenario: user 1 rated movie 1, and movie 1 is
not among user 1's recommendations. -/
theorem c4_rated_movies_witness :
    ∃ out M', recommend exModel 1 5 = Except.ok (out, M') ∧
      1 ∉ out.map fun fr => fr.movieId := by
  have hm : 1 ∈ (exRatings.filter fun rt => decide (rt.userId = 1)).map
      fun rt => rt.movieId := by decide
  exact ⟨_, _, rfl, c4_rated_movies_never_recommended exRatings exMovies
    1 5 1 _ _ hm rfl⟩

/-- C10: because every exploded row contributes its rating to exactly one
genre column and the normalizer is the sum of those same per-row ratings, the
profile of every user with at least one surviving row and positive ratings
sums to exactly 1; consequently `predictRating`'s multiplier is 1 and the
prediction equals the cosine similarity itself. -/
theorem c10_profile_sum_one :
    ∀ (ratings : List RatingRow) (movies : List MovieRow) (u : ℕ) (M : Model),
      M = buildModel ratings movies →
      (∀ rt ∈ ratings, 0 < rt.rating) →
      userRowsOf M.rows u ≠ [] →
      lookupProfile M u = some (profileVecOf M.vocab M.rows u) ∧
      (profileVecOf M.vocab M.rows u).sum = 1 ∧
      (∀ (m : ℕ) (fr : FeatRow), lookupFeature M m = some fr →
        predictRating M u m =
          Except.ok (cosineSim (profileVecOf M.vocab M.rows u) fr.vec)) := by
  intro R Mv u M hM hpos hne
  subst hM
  have hrows : (buildModel R Mv).rows = dfGenres R Mv := rfl
  have hvoc : (buildModel R Mv).vocab = vocabOf (dfGenres R Mv) := rfl
  rw [hrows] at hne ⊢
  rw [hvoc]
  obtain ⟨r0, hr0⟩ := List.exists_mem_of_ne_nil _ hne
  have hu : u ∈ userIdsOf (dfGenres R Mv) := by
    refine mem_userIdsOf.2 ⟨r0, (List.mem_filter.1 hr0).1, ?_⟩
    have := (List.mem_filter.1 hr0).2
    simpa using this
  have hlp : lookupProfile (buildModel R Mv) u =
      some (profileVecOf (vocabOf (dfGenres R Mv)) (dfGenres R Mv) u) := by
    rw [lookupProfile_buildModel, if_pos hu]
  have hDpos : 0 < ratingSum (userRowsOf (dfGenres R Mv) u) := by
    rw [ratingSum]
    refine List.sum_pos _ ?_ ?_
    · intro x hx
      obtain ⟨r, hr, rfl⟩ := List.mem_map.1 hx
      obtain ⟨rt, hrt, heq⟩ := rating_of_mem_dfGenres (List.mem_filter.1 hr).1
      rw [heq]
      exact hpos rt hrt
    · intro hc
      exact hne (by simpa using hc)
  have hsum : (profileVecOf (vocabOf (dfGenres R Mv)) (dfGenres R Mv) u).sum = 1 := by
    show (List.map (fun g =>
      ratingSum ((userRowsOf (dfGenres R Mv) u).filter fun r => decide (r.genre = g)) /
        ratingSum (userRowsOf (dfGenres R Mv) u)) (vocabOf (dfGenres R Mv))).sum = 1
    rw [sum_map_div, sum_fiberwise_ratingSum _ _ (vocabOf_nodup _) ?_,
      div_self (ne_of_gt hDpos)]
    intro r hr
    exact genre_mem_vocabOf (List.mem_filter.1 hr).1
  refine ⟨hlp, hsum, ?_⟩
  intro m fr hf
  simp only [predictRating, hlp, hf]
  rw [hsum]
  norm_num

/-- C10, witnessed at the §8 scenario for user 1 and movie 3. -/
theorem c10_profile_sum_one_witness :
    lookupProfile exModel 1 = some (profileVecOf exModel.vocab exModel.rows 1) ∧
    (profileVecOf exModel.vocab exModel.rows 1).sum = 1 ∧
    predictRating exModel 1 3 =
      Except.ok (cosineSim (profileVecOf exModel.vocab exModel.rows 1)
        [1, 0]) := by
  have hpos : ∀ rt ∈ exRatings, 0 < rt.rating := by
    intro rt hrt
    simp only [exRatings, List.mem_cons, List.not_mem_nil, or_false] at hrt
    rcases hrt with rfl | rfl | rfl <;> norm_num
  have hne : userRowsOf exModel.rows 1 ≠ [] := by
    rw [exModel_eq]
    norm_num +decide [userRowsOf, List.filter_cons]
  have h := c10_profile_sum_one exRatings exMovies 1 exModel rfl hpos hne
  have hf3 : lookupFeature exModel 3 = some ⟨3, "C", [1, 0], none⟩ := by
    rw [exModel_eq]
    norm_num [lookupFeature, List.find?_cons]
  exact ⟨h.1, h.2.1, h.2.2 3 ⟨3, "C", [1, 0], none⟩ hf3⟩

/-- C8: a missing user profile makes `recommend` and `predictRating` fail
with the explicit `notFound` error (never an empty `ok` result), and a
missing movie makes `predictRating` fail likewise; the failure is returned
from the query itself, the model value is untouched. -/
theorem c8_notfound_errors :
    (∀ (M : Model) (u n m : ℕ), lookupProfile M u = none →
      recommend M u n = Except.error Err.notFound ∧
      (∀ r, recommend M u n ≠ Except.ok r) ∧
      predictRating M u m = Except.error Err.notFound) ∧
    (∀ (M : Model) (u m : ℕ) (p : List ℚ), lookupProfile M u = some p →
      lookupFeature M m = none →
      predictRating M u m = Except.error Err.notFound) := by
  constructor
  · intro M u n m h
    refine ⟨?_, ?_, ?_⟩
    · simp [recommend, h]
    · intro r; simp [recommend, h]
    · simp [predictRating, h]
  · intro M u m p hp hf
    simp [predictRating, hp, hf]

/-- C8, witnessed at the §8 scenario: user 99 has no profile, movie 999 is
not in the catalog. -/
theorem c8_notfound_witness :
    recommend exModel 99 5 = Except.error Err.notFound ∧
    predictRating exModel 99 1 = Except.error Err.notFound ∧
    predictRating exModel 1 999 = Except.error Err.notFound := by
  have h99 : lookupProfile exModel 99 = none := by
    rw [exModel_eq]; norm_num [lookupProfile, List.find?_cons]
  have hp1 : lookupProfile exModel 1 = some [2/5, 3/5] := by
    rw [exModel_eq]; norm_num [lookupProfile, List.find?_cons]
  have hf999 : lookupFeature exModel 999 = none := by
    rw [exModel_eq]; norm_num [lookupFeature, List.find?_cons]
  exact ⟨(c8_notfound_errors.1 exModel 99 5 1 h99).1,
    (c8_notfound_errors.1 exModel 99 5 1 h99).2.2,
    c8_notfound_errors.2 exModel 1 999 _ hp1 hf999⟩

/-- C6 counterexample: as stated ("for every pair of input relations that are
permutations of one another") the claim is false when a movie id is
duplicated in the movies relation.  `dupMovies₁` and `dupMovies₂` are
permutations of each other, but the merge keeps the movies-relation order of
the matches of each rating and `movie_features = df_genres.drop_duplicates("movieId")`
then keeps whichever row of id 1 comes first, so the catalog entry of movie 1
has title "A" from one input order and title "B" from the other. -/
theorem c6_order_dependence_counterexample :
    dupMovies₁.Perm dupMovies₂ ∧ dupRatings.Perm dupRatings ∧
    lookupFeature (buildModel dupRatings dupMovies₁) 1 ≠
      lookupFeature (buildModel dupRatings dupMovies₂) 1 := by
  refine ⟨List.Perm.swap _ _ _, List.Perm.refl _, ?_⟩
  norm_num +decide [lookupFeature, buildModel, dfGenres, cleanRows, rawRows,
    mergeRows, explodeJoined, mkRow, splitGenres, splitGenresAux,
    dropDuplicatesBy, dropDuplicatesByAux, noGenresSentinel, vocabOf,
    movieFeaturesOf, oneHot, dupMovies₁, dupMovies₂, dupRatings,
    List.insertionSort, List.orderedInsert, List.filter_cons,
    List.flatMap_cons, List.find?_cons, String.ext_iff]

/-- C6 (amended with a uniqueness hypothesis): if the movie ids of the movies
relation are distinct, then building the model from any permutations of the
ratings and movies relations yields the same vocabulary (in the same order),
the same user-profiles table, and the same catalog: for every movie id the
`movie_features.loc` lookup returns the same title and genre vector. -/
theorem c6_build_order_independent {r₁ r₂ : List RatingRow}
    {m₁ m₂ : List MovieRow}
    (hn : (m₁.map fun mv => mv.movieId).Nodup)
    (hr : r₁.Perm r₂) (hm : m₁.Perm m₂) :
    (buildModel r₁ m₁).vocab = (buildModel r₂ m₂).vocab ∧
    (buildModel r₁ m₁).profiles = (buildModel r₂ m₂).profiles ∧
    ∀ m : ℕ, lookupFeature (buildModel r₁ m₁) m =
      lookupFeature (buildModel r₂ m₂) m := by
  have hdf : (dfGenres r₁ m₁).Perm (dfGenres r₂ m₂) := dfGenres_perm hn hr hm
  have hvoc : vocabOf (dfGenres r₁ m₁) = vocabOf (dfGenres r₂ m₂) :=
    vocabOf_eq_of_perm hdf
  have hn₂ : (m₂.map fun mv => mv.movieId).Nodup := (hm.map _).nodup hn
  refine ⟨hvoc, ?_, ?_⟩
  · have hprof : ∀ (R : List RatingRow) (Mv : List MovieRow),
        (buildModel R Mv).profiles = (userIdsOf (dfGenres R Mv)).map
          fun u => (u, profileVecOf (vocabOf (dfGenres R Mv)) (dfGenres R Mv) u) :=
      fun _ _ => rfl
    rw [hprof, hprof, userIdsOf_eq_of_perm hdf]
    apply List.map_congr_left
    intro u hu
    have hp : profileVecOf (vocabOf (dfGenres r₁ m₁)) (dfGenres r₁ m₁) u =
        profileVecOf (vocabOf (dfGenres r₂ m₂)) (dfGenres r₂ m₂) u := by
      rw [profileVecOf, profileVecOf, hvoc]
      apply List.map_congr_left
      intro g hg
      exact profileComp_eq_of_perm hdf u g
    rw [hp]
  · intro m
    rw [lookupFeature_canon r₁ m₁ m hn, lookupFeature_canon r₂ m₂ m hn₂,
      catalogEntryCanon_eq_of_perm hn hr hm m, hvoc]

/-- C6, witnessed at the §8 scenario against its own reversal: the movie ids
1, 2, 3 are distinct and reversing both relations is a permutation. -/
theorem c6_build_order_independent_witness :
    (buildModel exRatings exMovies).vocab =
        (buildModel exRatings.reverse exMovies.reverse).vocab ∧
    (buildModel exRatings exMovies).profiles =
        (buildModel exRatings.reverse exMovies.reverse).profiles ∧
    ∀ m : ℕ, lookupFeature (buildModel exRatings exMovies) m =
      lookupFeature (buildModel exRatings.reverse exMovies.reverse) m :=
  c6_build_order_independent (by decide) (List.reverse_perm exRatings).symm
    (List.reverse_perm exMovies).symm

end CBF
